import Mathlib

/-!
Verification of the webhook receiver's core algorithms: the Redis request
buffer (batch-take Lua script, requeue), the atomic quota script, the
circuit breaker, the Convex HTTP client's body reader and flush-worker
delivery policy, timestamp encoding, bearer-token verification, the
capture handler state machine, and the search SQL builder.

Strings manipulated byte-by-byte in the source are modelled as `List Char`
(all relevant data is ASCII); machine integers are modelled as `Int`/`Nat`.
-/

namespace WebhookRecv

/-! ## Redis request buffer (`redis/request_buffer.rs`)

The Redis list for one slug is modelled as `List String` with the Redis
head (index 0) first.  `LPUSH` prepends, so the newest entry is at the
head and the oldest at the tail, as in `push_request`. -/

/-- Model of `LPUSH` as used by `push_request`: insert at the head. -/
def lpush (item : String) (l : List String) : List String :=
  item :: l

/-- Model of `BATCH_TAKE_SCRIPT`: on list `L` and count `n`, if `LLEN == 0`
return `([], L)`; otherwise `take = min(n, len)`; the items returned are
`LRANGE L (-take) (-1)`, i.e. the elements at indices `len-take .. len-1`
in index (head-to-tail) order, which is `l.drop (len - take)`; if
`take >= len` the key is deleted (`DEL`), else the list is trimmed to
`[0, len-take-1]` (`LTRIM`), i.e. `l.take (len - take)`.  Returns
(items, remaining list). -/
def batchTakeScript (l : List String) (count : Nat) : List String × List String :=
  let len := l.length
  if len = 0 then ([], l)
  else
    let tk := min count len
    let items := l.drop (len - tk)
    if len ≤ tk then (items, [])
    else (items, l.take (len - tk))

/-- Model of `RedisState::take_batch`: runs the batch-take script, then
deserializes each returned entry with `serde_json::from_str`
(`decode` parameter), silently skipping entries that fail to parse
(`filter_map(.. .ok())`); on a Redis error (`kvErr`) it logs and returns
the empty batch. -/
def takeBatch {B : Type} (decode : String → Option B) (l : List String)
    (count : Nat) (kvErr : Bool) : List B :=
  if kvErr then []
  else ((batchTakeScript l count).1).filterMap decode

/-- Model of `RedisState::requeue`: each request is serialized
(`serde_json::to_string`, the `enc` parameter; requests that fail to
serialize are skipped) and `RPUSH`ed to the tail of the slug's list in
order, plus `SADD` of the slug to the active set. -/
def requeueOp {B : Type} (enc : B → Option String) (buf : List String)
    (reqs : List B) : List String :=
  buf ++ reqs.filterMap enc

/-! ## Convex types (`convex/types.rs`, `convex/client.rs`) -/

/-- Model of `MockResponse`: `status: i32`, `body`, `headers` (the Rust
`HashMap` is modelled as an association list). -/
structure MockResponse where
  status : Int
  body : String
  headers : List (String × String)
deriving DecidableEq, Repr

/-- Model of `BufferedRequest`. -/
structure BufferedRequest where
  method : String
  path : String
  headers : List (String × String)
  body : String
  queryParams : List (String × String)
  ip : String
  receivedAt : Int
deriving DecidableEq, Repr

/-- Model of `CaptureResponse`. -/
structure CaptureResponse where
  success : Bool
  error : String
  inserted : Nat
  mockResponse : Option MockResponse
deriving DecidableEq, Repr

/-- Model of `ConvexError`. -/
inductive ConvexError where
  | circuitOpen
  | network (e : String)
  | serverError (status : Nat) (body : String)
  | clientError (status : Nat) (body : String)
  | parseError (e : String)
  | responseTooLarge
deriving DecidableEq, Repr

/-! ## Flush worker per-slug delivery step (`workers/flush.rs`, lines 143-199)

After `take_batch` returned a non-empty `batch` (leaving the slug's Redis
list in state `restBuf`), the worker posts the batch to Convex.  The
outcome records the new buffer list, whether the batch was re-enqueued
(`requeue` = RPUSH-back plus SADD), and whether the batch was handed to
the fire-and-forget ClickHouse writer. -/
structure SlugOutcome where
  newBuf : List String
  requeued : Bool
  csHandedOff : Bool
deriving DecidableEq, Repr

/-- Model of the `match convex.capture_batch(..)` arm of `drain_pass`:
on `Ok(resp)` with non-empty `resp.error` the batch is only logged; on
success with ClickHouse configured the batch is handed to the
fire-and-forget writer; on `Err(e)` the batch is re-enqueued if and only
if `e` is `CircuitOpen`, and dropped for every other error. -/
def flushSlugStep {B : Type} (enc : B → Option String) (restBuf : List String)
    (batch : List B) (chConfigured : Bool)
    (result : Except ConvexError CaptureResponse) : SlugOutcome :=
  match result with
  | .ok resp =>
      if resp.error ≠ "" then ⟨restBuf, false, false⟩
      else ⟨restBuf, false, chConfigured⟩
  | .error e =>
      if e = ConvexError.circuitOpen then ⟨requeueOp enc restBuf batch, true, false⟩
      else ⟨restBuf, false, false⟩

/-! ## Quota script (`redis/quota.rs`) -/

/-- Result of an atomic quota check (`QuotaResult` in the source). -/
inductive QuotaResult where
  | allowed
  | exceeded
  | notFound
deriving DecidableEq, Repr

/-- The two hash fields of a quota key that `QUOTA_CHECK_SCRIPT` reads and
writes; `limit`, `periodEnd` and `userId` are never read by the script and
are omitted.  Field values are Redis strings. -/
structure QuotaHash where
  isUnlimited : Option String
  remaining : Option String
deriving DecidableEq, Repr

/-- Decimal-integer string parse: model of Lua `tonumber` (and of Rust
`str::parse::<i64>`) on the integer-literal strings this system writes
(`HSET` of an `i64`, `HINCRBY`).  Returns `none` on the empty string or
any non-digit content. -/
def parseIntStr : List Char → Option Int
  | [] => none
  | '-' :: rest =>
      (rest.foldlM (fun (a : Nat) (c : Char) =>
        if c.isDigit then some (a * 10 + (c.toNat - 48)) else none)
        0).bind fun n => if rest.isEmpty then none else some (-(n : Int))
  | l =>
      (l.foldlM (fun (a : Nat) (c : Char) =>
        if c.isDigit then some (a * 10 + (c.toNat - 48)) else none)
        0).map fun n => (n : Int)

/-- Model of `QUOTA_CHECK_SCRIPT` on the state of key `K`: if the key is
missing return -1; if `HGET isUnlimited == '1'` return 1; read
`tonumber(HGET remaining)`, if nil return -1, if `<= 0` return 0, else
`HINCRBY remaining -1` and return 1.  Returns (new key state, script
return value). -/
def quotaCheckScript (h : Option QuotaHash) : Option QuotaHash × Int :=
  match h with
  | none => (none, -1)
  | some q =>
      if q.isUnlimited = some "1" then (some q, 1)
      else
        match q.remaining.bind (fun s => parseIntStr s.data) with
        | none => (some q, -1)
        | some r =>
            if r ≤ 0 then (some q, 0)
            else (some { q with remaining := some (toString (r - 1)) }, 1)

/-- Model of `RedisState::check_quota`'s mapping of the script result:
`1 => Allowed`, `0 => Exceeded`, `-1 => NotFound`, anything else
(including a Redis error) `=> NotFound`. -/
def checkQuota (h : Option QuotaHash) : Option QuotaHash × QuotaResult :=
  let (h2, code) := quotaCheckScript h
  (h2, if code = 1 then QuotaResult.allowed
       else if code = 0 then QuotaResult.exceeded
       else QuotaResult.notFound)

/-! ## Circuit breaker (`convex/circuit_breaker.rs`)

The three Redis keys `cb:state`, `cb:failures`, `cb:probe` are modelled
with absolute expiry times (seconds).  A key set with `EX n` at time `t`
expires at `t + n` and is live at `t'` iff `t' < t + n`; a key set
without `EX` is live forever (`TTL = -1`). -/

/-- Read a key at time `t`: `none` when absent or expired. -/
def kvGet {A : Type} (t : Int) (k : Option (A × Option Int)) : Option A :=
  match k with
  | none => none
  | some (v, none) => some v
  | some (v, some ex) => if t < ex then some v else none

/-- Redis `TTL` at time `t`: -2 when the key does not exist (or has
expired), -1 when it exists with no expiry, else the remaining seconds. -/
def kvTtl {A : Type} (t : Int) (k : Option (A × Option Int)) : Int :=
  match k with
  | none => -2
  | some (_, none) => -1
  | some (_, some ex) => if t < ex then ex - t else -2

/-- The circuit-breaker portion of the KV store. -/
structure CBState where
  state : Option (String × Option Int)
  failures : Option (Int × Option Int)
  probe : Option (Unit × Option Int)
deriving DecidableEq, Repr

/-- Model of `RECORD_FAILURE_SCRIPT` at time `t` with the source constants
THRESHOLD = 5, COOLDOWN_SECS = 30, FAILURES_EXPIRE_SECS = 300:
`count = INCR cb:failures`, `EXPIRE cb:failures 300`, `DEL cb:probe`;
if `count >= 5` then `SET cb:state open EX 30`; else if the current state
is `half-open` then `SET cb:state open EX 30`.  Returns the new KV state
and the counter value. -/
def recordFailureScript (t : Int) (kv : CBState) : CBState × Int :=
  let count := (match kvGet t kv.failures with
    | some c => c + 1
    | none => 1)
  let failures2 : Option (Int × Option Int) := some (count, some (t + 300))
  if count ≥ 5 then
    (⟨some ("open", some (t + 30)), failures2, none⟩, count)
  else if kvGet t kv.state = some "half-open" then
    (⟨some ("open", some (t + 30)), failures2, none⟩, count)
  else
    (⟨kv.state, failures2, none⟩, count)

/-- Model of `ALLOW_REQUEST_SCRIPT` at time `t` (ARGV[1] =
HALF_OPEN_TTL_SECS = 60): missing or `closed` state allows; `open` with
positive TTL denies, `open` with non-positive TTL transitions to
`half-open` (EX 60), takes the probe lease (`SET cb:probe 1 EX 30 NX`)
and allows; `half-open` allows only the caller that wins the probe lease;
any other value allows.  Returns the new KV state and the script's 1/0
result. -/
def allowRequestScript (t : Int) (kv : CBState) : CBState × Int :=
  match kvGet t kv.state with
  | none => (kv, 1)
  | some s =>
      if s = "closed" then (kv, 1)
      else if s = "open" then
        if kvTtl t kv.state ≤ 0 then
          let probe2 := if (kvGet t kv.probe).isNone
            then some ((), some (t + 30)) else kv.probe
          (⟨some ("half-open", some (t + 60)), kv.failures, probe2⟩, 1)
        else (kv, 0)
      else if s = "half-open" then
        if (kvGet t kv.probe).isNone then
          (⟨kv.state, kv.failures, some ((), some (t + 30))⟩, 1)
        else (kv, 0)
      else (kv, 1)

/-- Model of `CircuitBreaker::allow_request`: runs the script and maps
`Ok(0)` to `false`, everything else (including a Redis error, which fails
open) to `true`.  The KV-error case is not represented here; the returned
pair covers the successful script execution. -/
def allowRequest (t : Int) (kv : CBState) : CBState × Bool :=
  let (kv2, code) := allowRequestScript t kv
  (kv2, code ≠ 0)

/-! ## Convex client body reader (`convex/client.rs`, `read_body`) -/

/-- MAX_RESPONSE_SIZE from the source: 1 MiB. -/
def MAX_RESPONSE_SIZE : Nat := 1024 * 1024

/-- An HTTP response as `read_body` sees it: status, the optional
`Content-Length` header, and the result of `resp.bytes()` (a transport
error or the accumulated body bytes). -/
structure HttpResp where
  status : Nat
  contentLength : Option Nat
  bodyBytes : Except String (List Nat)
deriving Repr

/-- Model of `ConvexClient::read_body`.  The first component is the
returned `Result<(u16, String)>` (the body string is produced by
`String::from_utf8_lossy`, abstracted as the `lossy` parameter); the
second component counts the `record_failure_sync()` dispatches performed
by this call (0 or 1). -/
def readBody (lossy : List Nat → String) (r : HttpResp) :
    Except ConvexError (Nat × String) × Nat :=
  if (match r.contentLength with
      | some len => decide (MAX_RESPONSE_SIZE < len)
      | none => false) = true then
    (Except.error ConvexError.responseTooLarge, 1)
  else
    match r.bodyBytes with
    | .error e => (Except.error (ConvexError.network e), 1)
    | .ok bytes =>
        if MAX_RESPONSE_SIZE < bytes.length then
          (Except.error ConvexError.responseTooLarge, 1)
        else
          (Except.ok (r.status, lossy bytes), 0)

/-! ## ClickHouse timestamp encoding (`clickhouse/types.rs`)

Rust's decimal integer formatting (`format!` of an `i64`/`u64`) is
embedded as `natDecimal`/`intDecimal`, and the parsing functions are
translated from `parse_received_at` / `parse_datetime_to_epoch`.  The
`f64` arithmetic of the sanity-window branch is modelled with exact
rational arithmetic; the theorems below use it only on inputs where
binary64 rounding cannot change the compared outcome. -/

/-- Fuel-based digit loop for decimal formatting (structurally recursive
so that concrete values kernel-reduce; the fuel `n + 1` always suffices
because the argument shrinks by a factor of 10 each step). -/
def natDecimalGo : Nat → Nat → List Char
  | 0, _ => []
  | f + 1, n =>
      if n < 10 then [Char.ofNat (48 + n)]
      else natDecimalGo f (n / 10) ++ [Char.ofNat (48 + n % 10)]

/-- Decimal digits of a natural number, most significant first (model of
Rust's `{}` formatting of an unsigned integer). -/
def natDecimal (n : Nat) : List Char :=
  natDecimalGo (n + 1) n

/-- Decimal rendering of an `i64` value (model of Rust's `{}` formatting
of a signed integer). -/
def intDecimal (i : Int) : List Char :=
  if i < 0 then '-' :: natDecimal i.natAbs else natDecimal i.toNat

/-- Model of Rust's `{:03}` formatting: zero-pad to width 3. -/
def pad3 (n : Nat) : List Char :=
  if n < 10 then '0' :: '0' :: natDecimal n
  else if n < 100 then '0' :: natDecimal n
  else natDecimal n

/-- Model of `epoch_ms_to_ch_decimal`: `secs = ms.div_euclid(1000)`,
`subsec_ms = ms.rem_euclid(1000)`, rendered as `"{secs}.{subsec_ms:03}"`. -/
def epochMsToChDecimal (ms : Int) : List Char :=
  intDecimal (ms.ediv 1000) ++ '.' :: pad3 (ms.emod 1000).toNat

/-- Model of Rust's `str::split(char)`: always returns at least one
(possibly empty) part. -/
def splitOnChar (sep : Char) : List Char → List (List Char)
  | [] => [[]]
  | c :: rest =>
      if c = sep then [] :: splitOnChar sep rest
      else
        match splitOnChar sep rest with
        | [] => [[c]]
        | h :: t => (c :: h) :: t

/-- Whether every character is an ASCII digit. -/
def digitsOnly (l : List Char) : Bool :=
  l.all Char.isDigit

/-- Value of a digit string (meaningful when `digitsOnly`). -/
def digitsNum (l : List Char) : Nat :=
  l.foldl (fun a c => a * 10 + (c.toNat - 48)) 0

/-- Model of Rust `str::parse::<u64>` (used on the fractional part in
`parse_received_at`): optional leading `+`, then a non-empty digit
string. -/
def parseNatStr : List Char → Option Nat
  | [] => none
  | '+' :: rest =>
      if rest ≠ [] ∧ digitsOnly rest then some (digitsNum rest) else none
  | l => if digitsOnly l then some (digitsNum l) else none

/-- Unsigned decimal-literal part of the `f64` parse model: either a
non-empty digit string, or `intpart.fracpart` where at least one side is
non-empty. -/
def parseF64Unsigned (l : List Char) : Option Rat :=
  match splitOnChar '.' l with
  | [ip] => if ip ≠ [] ∧ digitsOnly ip then some ((digitsNum ip : Nat) : Rat) else none
  | [ip, fp] =>
      if (ip ≠ [] ∨ fp ≠ []) ∧ digitsOnly ip ∧ digitsOnly fp then
        some (((digitsNum ip : Nat) : Rat)
          + ((digitsNum fp : Nat) : Rat) / ((10 : Rat) ^ fp.length))
      else none
  | _ => none

/-- Model of Rust `str::parse::<f64>` on plain (non-exponent, finite)
decimal literals, with exact rational arithmetic in place of binary64
rounding. -/
def parseF64 : List Char → Option Rat
  | [] => parseF64Unsigned []
  | c :: rest =>
      if c = '-' then (parseF64Unsigned rest).map (fun q => -q)
      else if c = '+' then parseF64Unsigned rest
      else parseF64Unsigned (c :: rest)

/-- Model of `is_leap_year`.  Rust's `%` on `i64` truncates toward zero,
hence `Int.tmod`. -/
def isLeapYear (y : Int) : Bool :=
  (Int.tmod y 4 = 0 ∧ Int.tmod y 100 ≠ 0) ∨ Int.tmod y 400 = 0

/-- Days contributed by the whole years `1970..year` (the `for` loop in
`parse_datetime_to_epoch`; empty when `year ≤ 1970`). -/
def yearDaysSum (year : Int) : Int :=
  (List.range (year - 1970).toNat).foldl
    (fun acc k => acc + (if isLeapYear (1970 + (k : Int)) then 366 else 365)) 0

/-- The `month_days` array of `parse_datetime_to_epoch`. -/
def monthDays (year : Int) : List Int :=
  [31, 28 + (if isLeapYear year then 1 else 0), 31, 30, 31, 30, 31, 31, 30, 31, 30, 31]

/-- Model of `parse_datetime_to_epoch`: parse `"YYYY-MM-DD HH:MM:SS"` by
byte slicing (`s[0..4]`, `s[5..7]`, ...), validate ranges, and compute
epoch seconds with the simplified day count. -/
def parseDatetimeToEpoch (s : List Char) : Option Int :=
  if s.length < 19 then none
  else
    (parseIntStr (s.take 4)).bind fun year =>
    (parseIntStr ((s.drop 5).take 2)).bind fun month =>
    (parseIntStr ((s.drop 8).take 2)).bind fun day =>
    (parseIntStr ((s.drop 11).take 2)).bind fun hour =>
    (parseIntStr ((s.drop 14).take 2)).bind fun minute =>
    (parseIntStr ((s.drop 17).take 2)).bind fun sec =>
    if ¬(1 ≤ month ∧ month ≤ 12) ∨ ¬(1 ≤ day ∧ day ≤ 31) ∨ ¬(0 ≤ hour ∧ hour ≤ 23)
        ∨ ¬(0 ≤ minute ∧ minute ≤ 59) ∨ ¬(0 ≤ sec ∧ sec ≤ 59) then none
    else
      let days : Int := yearDaysSum year + ((monthDays year).take (month - 1).toNat).sum
        + day - 1
      some (days * 86400 + hour * 3600 + minute * 60 + sec)

/-- The `"YYYY-MM-DD HH:MM:SS.mmm"` fallback branch of
`parse_received_at` (everything after the sanity-window check failed). -/
def parseReceivedAtDatetime (s : List Char) : Rat :=
  if 19 ≤ s.length then
    let parts := splitOnChar '.' s
    let datetimePart := parts.headD []
    let millis : Nat :=
      match parts with
      | _ :: p1 :: _ =>
          let frac := p1.take (min 3 p1.length)
          let v : Nat := (parseNatStr frac).getD 0
          match frac.length with
          | 1 => v * 100
          | 2 => v * 10
          | _ => v
      | _ => 0
    match parseDatetimeToEpoch datetimePart with
    | some epochSecs => (((epochSecs * 1000 + (millis : Int)) : Int) : Rat)
    | none => 0
  else 0

/-- Model of `parse_received_at`: first try the epoch-seconds parse with
the sanity window `946_684_800 < f < 4_102_444_800` (the year-2000 to
year-2100 range), returning `f * 1000`; otherwise fall through to the
datetime parse; on total failure return 0. -/
def parseReceivedAt (s : List Char) : Rat :=
  match parseF64 s with
  | some f =>
      if 946684800 < f ∧ f < 4102444800 then f * 1000
      else parseReceivedAtDatetime s
  | none => parseReceivedAtDatetime s

/-! ## SHA-256 (the `sha2` crate as used by `handlers/auth.rs`)

Bytes are `Nat` values `< 256`; 32-bit and 64-bit words are `Nat` with
explicit reduction mod `2^32` / `2^64`. -/

/-- Truncate to 32 bits. -/
def w32 (n : Nat) : Nat := n % 4294967296

/-- 32-bit addition. -/
def add32 (a b : Nat) : Nat := (a + b) % 4294967296

/-- 32-bit right rotation. -/
def rotr32 (x n : Nat) : Nat := w32 ((x >>> n) ||| (x <<< (32 - n)))

/-- 32-bit complement. -/
def not32 (x : Nat) : Nat := Nat.xor x 4294967295

/-- The 64 SHA-256 round constants (decimal, FIPS 180-4 4.2.2). -/
def sha256K : List Nat :=
  [1116352408, 1899447441, 3049323471, 3921009573, 961987163,
   1508970993, 2453635748, 2870763221, 3624381080, 310598401,
   607225278, 1426881987, 1925078388, 2162078206, 2614888103,
   3248222580, 3835390401, 4022224774, 264347078, 604807628,
   770255983, 1249150122, 1555081692, 1996064986, 2554220882,
   2821834349, 2952996808, 3210313671, 3336571891, 3584528711,
   113926993, 338241895, 666307205, 773529912, 1294757372,
   1396182291, 1695183700, 1986661051, 2177026350, 2456956037,
   2730485921, 2820302411, 3259730800, 3345764771, 3516065817,
   3600352804, 4094571909, 275423344, 430227734, 506948616,
   659060556, 883997877, 958139571, 1322822218, 1537002063,
   1747873779, 1955562222, 2024104815, 2227730452, 2361852424,
   2428436474, 2756734187, 3204031479, 3329325298]

/-- SHA-256 working state (eight 32-bit words). -/
structure Hash8 where
  a : Nat
  b : Nat
  c : Nat
  d : Nat
  e : Nat
  f : Nat
  g : Nat
  h : Nat
deriving Repr, DecidableEq

/-- SHA-256 initial hash value. -/
def sha256H0 : Hash8 :=
  ⟨1779033703, 3144134277, 1013904242, 2773480762,
   1359893119, 2600822924, 528734635, 1541459225⟩

/-- Big-endian 8-byte rendering of a 64-bit value. -/
def beBytes8 (n : Nat) : List Nat :=
  [(n >>> 56) % 256, (n >>> 48) % 256, (n >>> 40) % 256, (n >>> 32) % 256,
   (n >>> 24) % 256, (n >>> 16) % 256, (n >>> 8) % 256, n % 256]

/-- Split a list into chunks of `k` elements. -/
def chunksOf {A : Type} (k : Nat) (l : List A) : List (List A) :=
  if l.isEmpty ∨ k = 0 then []
  else l.take k :: chunksOf k (l.drop k)
termination_by l.length
decreasing_by
  rename_i hne
  simp only [List.isEmpty_iff, not_or] at hne
  have : l ≠ [] := hne.1
  have hk : k ≠ 0 := hne.2
  have : 0 < l.length := List.length_pos.mpr this
  simp only [List.length_drop]
  omega

/-- SHA-256 padding: append `0x80`, zeros to 56 mod 64, then the 64-bit
big-endian bit length. -/
def sha256Pad (msg : List Nat) : List Nat :=
  let l := msg.length
  let z := (119 - (l % 64)) % 64
  msg ++ [128] ++ List.replicate z 0 ++ beBytes8 (l * 8)

/-- Combine four bytes big-endian into a 32-bit word. -/
def beWord : List Nat → Nat
  | [b0, b1, b2, b3] => ((b0 <<< 24) ||| (b1 <<< 16) ||| (b2 <<< 8) ||| b3)
  | _ => 0

/-- Extend the 16-word block schedule by `k` additional words. -/
def extendSchedule (w : List Nat) : Nat → List Nat
  | 0 => w
  | k + 1 =>
      let n := w.length
      let s0 := let x := w.getD (n - 15) 0
        Nat.xor (Nat.xor (rotr32 x 7) (rotr32 x 18)) (x >>> 3)
      let s1 := let x := w.getD (n - 2) 0
        Nat.xor (Nat.xor (rotr32 x 17) (rotr32 x 19)) (x >>> 10)
      extendSchedule (w ++ [add32 (add32 (w.getD (n - 16) 0) s0) (add32 (w.getD (n - 7) 0) s1)]) k

/-- One SHA-256 round. -/
def sha256Round (st : Hash8) (wi ki : Nat) : Hash8 :=
  let bs1 := Nat.xor (Nat.xor (rotr32 st.e 6) (rotr32 st.e 11)) (rotr32 st.e 25)
  let ch := Nat.xor (st.e &&& st.f) ((not32 st.e) &&& st.g)
  let t1 := add32 (add32 (add32 st.h bs1) (add32 ch wi)) ki
  let bs0 := Nat.xor (Nat.xor (rotr32 st.a 2) (rotr32 st.a 13)) (rotr32 st.a 22)
  let maj := Nat.xor (Nat.xor (st.a &&& st.b) (st.a &&& st.c)) (st.b &&& st.c)
  let t2 := add32 bs0 maj
  ⟨add32 t1 t2, st.a, st.b, st.c, add32 st.d t1, st.e, st.f, st.g⟩

/-- Compress one 64-byte block into the running hash. -/
def sha256Block (h0 : Hash8) (block : List Nat) : Hash8 :=
  let ws := extendSchedule ((chunksOf 4 block).map beWord) 48
  let st := (List.zip ws sha256K).foldl (fun st p => sha256Round st p.1 p.2) h0
  ⟨add32 h0.a st.a, add32 h0.b st.b, add32 h0.c st.c, add32 h0.d st.d,
   add32 h0.e st.e, add32 h0.f st.f, add32 h0.g st.g, add32 h0.h st.h⟩

/-- SHA-256 digest: 32 bytes. -/
def sha256 (msg : List Nat) : List Nat :=
  let hh := (chunksOf 64 (sha256Pad msg)).foldl sha256Block sha256H0
  [hh.a, hh.b, hh.c, hh.d, hh.e, hh.f, hh.g, hh.h].flatMap
    (fun w => [(w >>> 24) % 256, (w >>> 16) % 256, (w >>> 8) % 256, w % 256])

/-! ## SipHash-1-3 (`std::collections::hash_map::DefaultHasher`, used by
`handlers/cache_invalidate.rs::hash_to_fixed`) -/

/-- Truncate to 64 bits. -/
def w64 (n : Nat) : Nat := n % 18446744073709551616

/-- 64-bit addition. -/
def add64 (a b : Nat) : Nat := (a + b) % 18446744073709551616

/-- 64-bit left rotation. -/
def rotl64 (x b : Nat) : Nat := w64 ((x <<< b) ||| (x >>> (64 - b)))

/-- SipHash internal state. -/
structure SipState where
  v0 : Nat
  v1 : Nat
  v2 : Nat
  v3 : Nat
deriving Repr

/-- One SipRound. -/
def sipRound (s : SipState) : SipState :=
  let v0 := add64 s.v0 s.v1
  let v1 := Nat.xor (rotl64 s.v1 13) v0
  let v0 := rotl64 v0 32
  let v2 := add64 s.v2 s.v3
  let v3 := Nat.xor (rotl64 s.v3 16) v2
  let v0 := add64 v0 v3
  let v3 := Nat.xor (rotl64 v3 21) v0
  let v2 := add64 v2 v1
  let v1 := Nat.xor (rotl64 v1 17) v2
  let v2 := rotl64 v2 32
  ⟨v0, v1, v2, v3⟩

/-- Little-endian word value of a byte list. -/
def leWordVal (bytes : List Nat) : Nat :=
  bytes.foldr (fun b acc => acc * 256 + b) 0

/-- Little-endian 8-byte rendering of a 64-bit value. -/
def leBytes8 (n : Nat) : List Nat :=
  [n % 256, (n >>> 8) % 256, (n >>> 16) % 256, (n >>> 24) % 256,
   (n >>> 32) % 256, (n >>> 40) % 256, (n >>> 48) % 256, (n >>> 56) % 256]

/-- Absorb one message word with `c = 1` compression round. -/
def sipAbsorb (s : SipState) (m : Nat) : SipState :=
  let s := { s with v3 := Nat.xor s.v3 m }
  let s := sipRound s
  { s with v0 := Nat.xor s.v0 m }

/-- SipHash-1-3 of a byte message with keys `k0`, `k1` (the
`DefaultHasher` algorithm; Rust uses keys `(0, 0)`). -/
def sipHash13 (k0 k1 : Nat) (msg : List Nat) : Nat :=
  let s0 : SipState :=
    ⟨Nat.xor k0 0x736f6d6570736575, Nat.xor k1 0x646f72616e646f6d,
     Nat.xor k0 0x6c7967656e657261, Nat.xor k1 0x7465646279746573⟩
  let full := msg.length / 8
  let blocks := chunksOf 8 (msg.take (full * 8))
  let s1 := blocks.foldl (fun s b => sipAbsorb s (leWordVal b)) s0
  let lastWord := w64 (leWordVal (msg.drop (full * 8)) + (msg.length % 256) <<< 56)
  let s2 := sipAbsorb s1 lastWord
  let s3 := { s2 with v2 := Nat.xor s2.v2 0xff }
  let s4 := sipRound (sipRound (sipRound s3))
  Nat.xor (Nat.xor s4.v0 s4.v1) (Nat.xor s4.v2 s4.v3)

/-! ## Bearer-token verification (`handlers/auth.rs` and
`handlers/cache_invalidate.rs`) -/

/-- UTF-8 bytes of an ASCII string. -/
def strBytes (s : String) : List Nat :=
  s.data.map Char.toNat

/-- The `"Bearer " + secret` string as bytes (`format!("Bearer {secret}")`). -/
def bearerBytes (secret : List Nat) : List Nat :=
  strBytes "Bearer " ++ secret

/-- Model of `subtle`'s `ct_eq` on equal-size byte arrays: XOR each pair
of bytes, OR the results, and compare with zero.  (The constant-time
execution profile itself is outside this functional model.) -/
def ctEq (a b : List Nat) : Bool :=
  decide (a.length = b.length) &&
    ((List.zipWith Nat.xor a b).foldl Nat.lor 0 == 0)

/-- Model of `verify_bearer_token`: compare the SHA-256 digest of the
provided header value with the SHA-256 digest of `"Bearer " + secret`. -/
def verifyBearerToken (provided secret : List Nat) : Bool :=
  ctEq (sha256 provided) (sha256 (bearerBytes secret))

/-- Model of `cache_invalidate.rs::hash_to_fixed`: hash the byte slice
with `DefaultHasher` (SipHash-1-3, zero keys; the slice `Hash` impl
writes the 8-byte little-endian length prefix before the bytes) and
return the little-endian bytes of the 64-bit result. -/
def hashToFixed (data : List Nat) : List Nat :=
  leBytes8 (sipHash13 0 0 (leBytes8 data.length ++ data))

/-- Model of the authorization decision of `cache_invalidate`: compare
the fixed 8-byte `DefaultHasher` digests of the header value and of
`"Bearer " + secret` with `ct_eq`. -/
def cacheInvalidateAuthorized (auth secret : List Nat) : Bool :=
  ctEq (hashToFixed auth) (hashToFixed (bearerBytes secret))

/-! ## Capture handler (`handlers/webhook.rs`) -/

/-- Model of `is_valid_slug`: non-empty, at most 50 bytes, every byte
ASCII alphanumeric, `-` or `_`. -/
def isValidSlugChars (l : List Char) : Bool :=
  !l.isEmpty && l.length ≤ 50 && l.all (fun c => c.isAlphanum || c = '-' || c = '_')

/-- String wrapper for `is_valid_slug`. -/
def isValidSlug (s : String) : Bool :=
  isValidSlugChars s.data

/-- Model of the path normalization step: `"" -> "/"`, else ensure a
leading slash. -/
def normalizePath (p : List Char) : List Char :=
  if p = [] then ['/']
  else if p.headD ' ' = '/' then p
  else '/' :: p

/-- Model of `EndpointInfo` (`convex/types.rs`). -/
structure EndpointInfo where
  endpointId : String
  userId : Option String
  isEphemeral : Bool
  expiresAt : Option Int
  mockResponse : Option MockResponse
  error : String
deriving DecidableEq, Repr

/-- Model of `EndpointInfo::is_expired` with the current time passed
explicitly (`now_ms()` in the source). -/
def isExpired (e : EndpointInfo) (now : Int) : Bool :=
  match e.expiresAt with
  | some t => t < now
  | none => false

/-- BLOCKED_HEADERS from the source. -/
def BLOCKED_HEADERS : List String :=
  ["set-cookie", "strict-transport-security", "content-security-policy", "x-frame-options"]

/-- An HTTP response produced by the capture handler, identified up to
the data the handler controls. -/
inductive WebhookResponse where
  | invalidSlug
  | notFound
  | expired
  | quotaExceeded
  | okText
  | mock (status : Nat) (headers : List (String × String)) (body : String)
deriving DecidableEq, Repr

/-- Model of `build_mock_response`: clamp the status to a valid HTTP code
(100..=999, else 200), drop headers that are oversized (key > 256 or
value > 8192 bytes), blocklisted (case-insensitive), or contain CR/LF.
The `http` crate's header name/value validation inside
`builder.header(..)` is abstracted as `hdrOk`; if any kept header fails
it the builder errors and the code falls back to a plain 200 `"OK"`. -/
def buildMockResponse (hdrOk : String → String → Bool) (m : MockResponse) :
    WebhookResponse :=
  let status : Nat := if 100 ≤ m.status ∧ m.status ≤ 999 then m.status.toNat else 200
  let kept := m.headers.filter (fun kv =>
    decide (kv.1.length ≤ 256) && decide (kv.2.length ≤ 8192)
    && !(BLOCKED_HEADERS.contains kv.1.toLower)
    && !(kv.1.data.contains '\r' || kv.1.data.contains '\n'
         || kv.2.data.contains '\r' || kv.2.data.contains '\n'))
  if kept.all (fun kv => hdrOk kv.1 kv.2) then WebhookResponse.mock status kept m.body
  else WebhookResponse.okText

/-- The environment a single `handle_webhook` invocation observes: the
endpoint-cache read, the result a blocking endpoint fetch would return,
the results the two quota checks would return, whether `check_dedup`
would report first-seen, and the current time. -/
structure HandlerEnv where
  cache : Option EndpointInfo
  fetch : Except ConvexError (Option EndpointInfo)
  quota1 : QuotaResult
  quota2 : QuotaResult
  firstSeen : Bool
  now : Int

/-- What a `handle_webhook` invocation did: its HTTP response, whether it
buffered the request (`push_request`), and whether it consulted
`check_dedup`. -/
structure HandlerOutcome where
  resp : WebhookResponse
  buffered : Bool
  dedupConsulted : Bool
deriving DecidableEq, Repr

/-- Steps 4-6 of `handle_webhook` once an endpoint is resolved and quota
allowed: consult `check_dedup` (its result is `env.firstSeen`); a
duplicate skips buffering; either way the response is the mock response
when present, else 200 `"OK"`. -/
def handlerAfterQuota (hdrOk : String → String → Bool) (env : HandlerEnv)
    (ep : EndpointInfo) : HandlerOutcome :=
  let resp := match ep.mockResponse with
    | some m => buildMockResponse hdrOk m
    | none => WebhookResponse.okText
  if env.firstSeen then ⟨resp, true, true⟩ else ⟨resp, false, true⟩

/-- Steps 2-3 of `handle_webhook` for a resolved endpoint: expiry check,
then the atomic quota check with a blocking warm-and-re-check on
NotFound, failing open when the quota is still NotFound. -/
def handlerAfterResolve (hdrOk : String → String → Bool) (env : HandlerEnv)
    (ep : EndpointInfo) : HandlerOutcome :=
  if isExpired ep env.now then ⟨WebhookResponse.expired, false, false⟩
  else
    match env.quota1 with
    | QuotaResult.exceeded => ⟨WebhookResponse.quotaExceeded, false, false⟩
    | QuotaResult.allowed => handlerAfterQuota hdrOk env ep
    | QuotaResult.notFound =>
        match env.quota2 with
        | QuotaResult.exceeded => ⟨WebhookResponse.quotaExceeded, false, false⟩
        | _ => handlerAfterQuota hdrOk env ep

/-- Model of `handle_webhook`: slug validation, endpoint resolution
(cache hit / blocking fetch with optimistic buffering on fetch error),
expiry, quota with blocking re-check and fail-open, dedup (skip
buffering on duplicate), buffering, and the mock-or-OK response. -/
def handleWebhook (hdrOk : String → String → Bool) (slug : String)
    (env : HandlerEnv) : HandlerOutcome :=
  if ¬ isValidSlug slug then ⟨WebhookResponse.invalidSlug, false, false⟩
  else
    match env.cache with
    | some ep =>
        if ep.error = "not_found" then ⟨WebhookResponse.notFound, false, false⟩
        else handlerAfterResolve hdrOk env ep
    | none =>
        match env.fetch with
        | .ok (some ep) => handlerAfterResolve hdrOk env ep
        | .ok none => ⟨WebhookResponse.notFound, false, false⟩
        | .error _ => ⟨WebhookResponse.okText, true, false⟩

/-! ## Search SQL builder (`handlers/search.rs`, escape functions from
`clickhouse/client.rs`) -/

/-- Model of Rust `str::replace` with a single-character pattern. -/
def replaceChar (pat : Char) (rep : List Char) (l : List Char) : List Char :=
  l.flatMap (fun c => if c = pat then rep else [c])

/-- Model of `escape_clickhouse_string`:
`input.replace('\\', "\\\\").replace('\'', "\\'")`. -/
def escapeClickhouseString (l : List Char) : List Char :=
  replaceChar '\'' ['\\', '\''] (replaceChar '\\' ['\\', '\\'] l)

/-- Model of `escape_clickhouse_identifier`: double every backtick. -/
def escapeClickhouseIdentifier (l : List Char) : List Char :=
  replaceChar '`' ['`', '`'] l

/-- Model of `SearchParams` (the `from`/`to` query parameters are named
`fromMs`/`toMs` here). -/
structure SearchParams where
  user_id : List Char
  plan : Option (List Char)
  slug : Option (List Char)
  method : Option (List Char)
  q : Option (List Char)
  fromMs : Option Int
  toMs : Option Int
  limit : Option Nat
  offset : Option Nat
  order : Option (List Char)

/-- Model of `SearchSqlError`. -/
inductive SearchSqlError where
  | invalidPlan
  | invalidSlug
deriving DecidableEq, Repr

/-- Model of `free_retention_clause_for_plan`. -/
def freeRetentionClauseForPlan (plan : Option (List Char)) :
    Except SearchSqlError (Option (List Char)) :=
  match plan with
  | some p =>
      if p = "free".data then Except.ok (some ("received_at >= now() - INTERVAL 7 DAY").data)
      else if p = "pro".data then Except.ok none
      else Except.error SearchSqlError.invalidPlan
  | none => Except.ok none

/-- The computed `limit`: default 50, capped at 200. -/
def searchLimit (p : SearchParams) : Nat :=
  min (p.limit.getD 50) 200

/-- The computed `offset`: default 0, capped at 10000. -/
def searchOffset (p : SearchParams) : Nat :=
  min (p.offset.getD 0) 10000

/-- The computed `ORDER BY` direction: `ASC` only for `order == "asc"`. -/
def searchOrder (p : SearchParams) : List Char :=
  if p.order = some ("asc").data then ("ASC").data else ("DESC").data

/-- Model of Rust's `Vec::join` on string fragments (used as
`conditions.join(" AND ")`). -/
def joinSep (sep : List Char) : List (List Char) → List Char
  | [] => []
  | [x] => x
  | x :: y :: xs => x ++ sep ++ joinSep sep (y :: xs)

/-- Per-condition metadata used to state the injection-safety theorem:
for each `WHERE` condition pushed by `build_search_sql`, this carries the
condition text, the contents of the single-quoted literals it contains
(in order), and its literal-blanked skeleton.  The branching mirrors the
source's `conditions.push` calls exactly. -/
def searchCondMeta (p : SearchParams) (planClause : Option (List Char))
    (slug : Option (List Char)) : List (List Char × List (List Char) × List Char) :=
  [(("user_id = '").data ++ escapeClickhouseString p.user_id ++ ['\''],
    [escapeClickhouseString p.user_id], ("user_id = ''").data)]
  ++ (match planClause with
      | some cl => [(cl, [], cl)]
      | none => [])
  ++ (match slug with
      | some s => [(("slug = '").data ++ escapeClickhouseString s ++ ['\''],
          [escapeClickhouseString s], ("slug = ''").data)]
      | none => [])
  ++ (match p.method with
      | some m =>
          if m ≠ ("ALL").data then
            [(("method = '").data ++ escapeClickhouseString m ++ ['\''],
              [escapeClickhouseString m], ("method = ''").data)]
          else []
      | none => [])
  ++ (match p.q with
      | some qq =>
          if qq ≠ [] then
            [(("(multiSearchAny(path, ['").data ++ escapeClickhouseString qq
                ++ ("']) OR multiSearchAny(body, ['").data ++ escapeClickhouseString qq
                ++ ("']) OR multiSearchAny(headers, ['").data ++ escapeClickhouseString qq
                ++ ("']))").data,
              [escapeClickhouseString qq, escapeClickhouseString qq, escapeClickhouseString qq],
              ("(multiSearchAny(path, ['']) OR multiSearchAny(body, ['']) OR multiSearchAny(headers, ['']))").data)]
          else []
      | none => [])
  ++ (match p.fromMs with
      | some v => [(("received_at >= toDateTime64('").data ++ epochMsToChDecimal v
          ++ ("', 3, 'UTC')").data,
          [epochMsToChDecimal v, ("UTC").data],
          ("received_at >= toDateTime64('', 3, '')").data)]
      | none => [])
  ++ (match p.toMs with
      | some v => [(("received_at <= toDateTime64('").data ++ epochMsToChDecimal v
          ++ ("', 3, 'UTC')").data,
          [epochMsToChDecimal v, ("UTC").data],
          ("received_at <= toDateTime64('', 3, '')").data)]
      | none => [])

/-- The fixed head of the built query, up to the escaped database
identifier. -/
def sqlHead : List Char :=
  ("SELECT endpoint_id, slug, user_id, method, path, headers, body, query_params, ip, content_type, size, is_ephemeral, received_at FROM `").data

/-- Assemble the query from its parts (the `format!` at the end of
`build_search_sql`). -/
def assembleSql (p : SearchParams) (db : List Char) (planClause : Option (List Char))
    (slug : Option (List Char)) : List Char :=
  sqlHead ++ escapeClickhouseIdentifier db ++ ("`.`requests` WHERE ").data
  ++ joinSep ((" AND ").data) ((searchCondMeta p planClause slug).map (fun m => m.1))
  ++ (" ORDER BY received_at ").data ++ searchOrder p
  ++ (" LIMIT ").data ++ natDecimal (searchLimit p)
  ++ (" OFFSET ").data ++ natDecimal (searchOffset p)

/-- Model of `build_search_sql`: plan validation, slug-regex validation,
then assembly.  Error precedence follows the source (plan before slug). -/
def buildSearchSql (p : SearchParams) (db : List Char) :
    Except SearchSqlError (List Char) :=
  match freeRetentionClauseForPlan p.plan with
  | .error e => Except.error e
  | .ok planClause =>
      match p.slug with
      | some s =>
          if isValidSlugChars s then Except.ok (assembleSql p db planClause (some s))
          else Except.error SearchSqlError.invalidSlug
      | none => Except.ok (assembleSql p db planClause none)

/-- Expected literal contents of the built query, in order. -/
def searchLits (p : SearchParams) (planClause : Option (List Char))
    (slug : Option (List Char)) : List (List Char) :=
  ((searchCondMeta p planClause slug).map (fun m => m.2.1)).flatten

/-- Expected literal-blanked skeleton of the built query: the entire
query text with every single-quoted literal's content removed.  It does
not depend on the contents of the user-supplied strings. -/
def searchSkel (p : SearchParams) (db : List Char) (planClause : Option (List Char))
    (slug : Option (List Char)) : List Char :=
  sqlHead ++ escapeClickhouseIdentifier db ++ ("`.`requests` WHERE ").data
  ++ joinSep ((" AND ").data) ((searchCondMeta p planClause slug).map (fun m => m.2.2))
  ++ (" ORDER BY received_at ").data ++ searchOrder p
  ++ (" LIMIT ").data ++ natDecimal (searchLimit p)
  ++ (" OFFSET ").data ++ natDecimal (searchOffset p)

/-- A single-quote-aware lexer over SQL text.  Outside a literal it
copies characters to the skeleton; a `'` opens a literal; inside, `\c`
is an escape that stays in the literal, an unescaped `'` closes it.
Returns the list of literal contents (raw, escapes preserved) and the
skeleton (the text with literal contents removed), or `none` for an
unterminated literal. -/
def lexAux : Bool → List Char → List Char → Option (List (List Char) × List Char)
  | false, _, [] => some ([], [])
  | false, _, c :: rest =>
      if c = '\'' then (fun p => (p.1, '\'' :: p.2)) <$> lexAux true [] rest
      else (fun p => (p.1, c :: p.2)) <$> lexAux false [] rest
  | true, _, [] => none
  | true, acc, c :: rest =>
      if c = '\\' then
        match rest with
        | [] => none
        | d :: rest2 => lexAux true (d :: '\\' :: acc) rest2
      else if c = '\'' then
        (fun p => (acc.reverse :: p.1, '\'' :: p.2)) <$> lexAux false [] rest
      else lexAux true (c :: acc) rest

/-- Lex a whole query starting outside any literal. -/
def lexQuery (l : List Char) : Option (List (List Char) × List Char) :=
  lexAux false [] l

/-- Specification of a lexed chunk: appended in front of any rest of the
query, `t` contributes exactly the literal contents `lits` and the
skeleton text `sk`, leaving the lexer outside any literal. -/
def LexSpec (t : List Char) (lits : List (List Char)) (sk : List Char) : Prop :=
  ∀ rest, lexAux false [] (t ++ rest)
    = (fun p => (lits ++ p.1, sk ++ p.2)) <$> lexAux false [] rest

/-! ## Helper lemmas -/

theorem length_filterMap_eq_length_filter {A B : Type} (f : A → Option B) :
    ∀ l : List A, (l.filterMap f).length = (l.filter (fun a => (f a).isSome)).length := by
  intro l
  induction l with
  | nil => rfl
  | cons a l ih =>
      by_cases h : (f a).isSome
      · obtain ⟨b, hb⟩ := Option.isSome_iff_exists.mp h
        simp [List.filterMap_cons, List.filter_cons, hb, h, ih]
      · rw [Option.not_isSome_iff_eq_none] at h
        simp [List.filterMap_cons, List.filter_cons, h, ih]

theorem batchTakeScript_decomp (l : List String) (count : Nat) :
    (batchTakeScript l count).2 ++ (batchTakeScript l count).1 = l := by
  unfold batchTakeScript
  by_cases h0 : l.length = 0
  · simp [h0]
  · simp only [h0, if_false]
    by_cases h1 : l.length ≤ min count l.length
    · have : l.length - min count l.length = 0 := by omega
      simp [h1, this]
    · simp [h1, List.take_append_drop]

/-! ## Claim theorems -/

/-- C1 (code bug): with requests "A" then "B" pushed (left-push, so the
list is ["B", "A"] head-first), a batch-take of size 2 returns the taken
entries in head-to-tail order `["B", "A"]` — newest first — and not the
FIFO order `["A", "B"]` that the script's own doc comment ("FIFO order:
oldest first") and the claim state. -/
theorem batchTake_newest_first_on_AB :
    batchTakeScript (lpush "B" (lpush "A" [])) 2 = (["B", "A"], [])
    ∧ (["B", "A"] : List String) ≠ ["A", "B"] := by
  exact ⟨rfl, by decide⟩

/-- C10: `take_batch` never fails: on a Redis error it returns the empty
batch; otherwise the returned batch is exactly the decodable taken
entries (undecodable entries are silently omitted), and the taken tail
segment has already been removed from the stored list (remaining ++ taken
reassembles the original list), so omitted entries are permanently lost. -/
theorem takeBatch_lossy_decode_and_error_empty {B : Type} :
    ∀ (decode : String → Option B) (l : List String) (count : Nat),
      takeBatch decode l count true = []
      ∧ takeBatch decode l count false = ((batchTakeScript l count).1).filterMap decode
      ∧ (batchTakeScript l count).2 ++ (batchTakeScript l count).1 = l
      ∧ (takeBatch decode l count false).length
          = ((batchTakeScript l count).1.filter (fun s => (decode s).isSome)).length := by
  intro decode l count
  refine ⟨rfl, rfl, batchTakeScript_decomp l count, ?_⟩
  simpa [takeBatch] using length_filterMap_eq_length_filter decode (batchTakeScript l count).1

/-- C2: in the flush worker's per-slug step, a `capture_batch` error
other than CircuitOpen leaves the buffer untouched (the batch, already
removed by the take, is dropped and never re-enqueued), while a
CircuitOpen error re-enqueues the batch exactly once: its serializable
entries are right-pushed in order to the tail of the slug's buffer, plus
the SADD to the active set (the `requeued` flag). -/
theorem flush_requeues_exactly_on_circuit_open {B : Type} :
    ∀ (enc : B → Option String) (restBuf : List String) (batch : List B)
      (ch : Bool) (e : ConvexError),
      (e ≠ ConvexError.circuitOpen →
        flushSlugStep enc restBuf batch ch (Except.error e) = ⟨restBuf, false, false⟩)
      ∧ flushSlugStep enc restBuf batch ch (Except.error ConvexError.circuitOpen)
          = ⟨restBuf ++ batch.filterMap enc, true, false⟩ := by
  intro enc restBuf batch ch e
  constructor
  · intro he
    simp [flushSlugStep, he]
  · simp [flushSlugStep, requeueOp]

/-- Witness for C2 at concrete inputs: a network error drops the batch,
CircuitOpen re-enqueues it at the tail. -/
theorem flush_requeues_exactly_on_circuit_open_witness :
    flushSlugStep (fun (s : String) => some s) ["r"] ["x", "y"] true
        (Except.error (ConvexError.network "timeout")) = ⟨["r"], false, false⟩
    ∧ flushSlugStep (fun (s : String) => some s) ["r"] ["x", "y"] true
        (Except.error ConvexError.circuitOpen) = ⟨["r", "x", "y"], true, false⟩ := by
  refine ⟨(flush_requeues_exactly_on_circuit_open _ _ _ _ _).1 (by decide), ?_⟩
  simpa using (flush_requeues_exactly_on_circuit_open
    (fun (s : String) => some s) ["r"] ["x", "y"] true ConvexError.circuitOpen).2

/-- C3: the atomic quota script returns NotFound when the key is missing
or its `remaining` field does not read as an integer; returns Allowed
without decrementing when `isUnlimited == "1"`; returns Exceeded leaving
`remaining` unchanged when `remaining <= 0`; and otherwise decrements
`remaining` by exactly 1 and returns Allowed. -/
theorem quota_script_cases :
    ∀ (q : QuotaHash),
      checkQuota none = (none, QuotaResult.notFound)
      ∧ (q.isUnlimited = some "1" → checkQuota (some q) = (some q, QuotaResult.allowed))
      ∧ (q.isUnlimited ≠ some "1" →
          q.remaining.bind (fun s => parseIntStr s.data) = none →
          checkQuota (some q) = (some q, QuotaResult.notFound))
      ∧ (∀ r : Int, q.isUnlimited ≠ some "1" →
          q.remaining.bind (fun s => parseIntStr s.data) = some r → r ≤ 0 →
          checkQuota (some q) = (some q, QuotaResult.exceeded))
      ∧ (∀ r : Int, q.isUnlimited ≠ some "1" →
          q.remaining.bind (fun s => parseIntStr s.data) = some r → 0 < r →
          checkQuota (some q)
            = (some { q with remaining := some (toString (r - 1)) }, QuotaResult.allowed)) := by
  intro q
  refine ⟨rfl, ?_, ?_, ?_, ?_⟩
  · intro h
    simp [checkQuota, quotaCheckScript, h]
  · intro h hr
    simp [checkQuota, quotaCheckScript, h, hr]
  · intro r h hr hle
    have : ¬ (0 : Int) < r := by omega
    simp [checkQuota, quotaCheckScript, h, hr, hle, this]
  · intro r h hr hpos
    have : ¬ r ≤ 0 := by omega
    simp [checkQuota, quotaCheckScript, h, hr, this]

/-- Witness for C3 at concrete hashes: a limited quota with remaining
"3" decrements to "2" and allows; remaining "0" is exceeded and left
unchanged. -/
theorem quota_script_cases_witness :
    checkQuota (some ⟨some "0", some "3"⟩)
      = (some ⟨some "0", some "2"⟩, QuotaResult.allowed)
    ∧ checkQuota (some ⟨some "0", some "0"⟩)
      = (some ⟨some "0", some "0"⟩, QuotaResult.exceeded) := by
  constructor
  · have h := (quota_script_cases ⟨some "0", some "3"⟩).2.2.2.2 3
      (by decide) (by decide) (by decide)
    simpa using h
  · exact (quota_script_cases ⟨some "0", some "0"⟩).2.2.2.1 0
      (by decide) (by decide) (by decide)

theorem recordFailureScript_failures (t : Int) (kv : CBState) :
    (recordFailureScript t kv).1.failures
      = some ((match kvGet t kv.failures with | some c => c + 1 | none => 1), some (t + 300))
    ∧ (recordFailureScript t kv).2
      = (match kvGet t kv.failures with | some c => c + 1 | none => 1) := by
  unfold recordFailureScript
  by_cases h5 : (match kvGet t kv.failures with | some c => c + 1 | none => 1) ≥ 5
  · simp [h5]
  · by_cases hh : kvGet t kv.state = some "half-open"
    · simp [h5, hh]
    · simp [h5, hh]

/-- C8: after `record_failure` is invoked five times with each invocation
inside the previous one's 300-second failure window (and no intervening
`record_success`), starting from a state with no live failure counter,
the counter reaches 5, `cb:state` is set to `"open"` with a 30-second
TTL, and `allow_request` returns false (without mutating the state) at
every time within the following 30 seconds. -/
theorem breaker_opens_after_five_failures :
    ∀ (kv0 : CBState) (t1 t2 t3 t4 t5 tq : Int),
      kvGet t1 kv0.failures = none →
      t1 ≤ t2 → t2 ≤ t3 → t3 ≤ t4 → t4 ≤ t5 →
      t2 < t1 + 300 → t3 < t2 + 300 → t4 < t3 + 300 → t5 < t4 + 300 →
      t5 ≤ tq → tq < t5 + 30 →
      (recordFailureScript t5 (recordFailureScript t4 (recordFailureScript t3
          (recordFailureScript t2 (recordFailureScript t1 kv0).1).1).1).1).2 = 5
      ∧ (recordFailureScript t5 (recordFailureScript t4 (recordFailureScript t3
          (recordFailureScript t2 (recordFailureScript t1 kv0).1).1).1).1).1.state
          = some ("open", some (t5 + 30))
      ∧ allowRequest tq (recordFailureScript t5 (recordFailureScript t4
          (recordFailureScript t3 (recordFailureScript t2
            (recordFailureScript t1 kv0).1).1).1).1).1
          = ((recordFailureScript t5 (recordFailureScript t4 (recordFailureScript t3
              (recordFailureScript t2 (recordFailureScript t1 kv0).1).1).1).1).1, false) := by
  intro kv0 t1 t2 t3 t4 t5 tq h0 h12 h23 h34 h45 w2 w3 w4 w5 hq1 hq2
  set kv1 := (recordFailureScript t1 kv0).1 with hkv1
  set kv2 := (recordFailureScript t2 kv1).1 with hkv2
  set kv3 := (recordFailureScript t3 kv2).1 with hkv3
  set kv4 := (recordFailureScript t4 kv3).1 with hkv4
  have f1 : kv1.failures = some (1, some (t1 + 300)) := by
    have := (recordFailureScript_failures t1 kv0).1
    rw [h0] at this
    simpa [hkv1] using this
  have g2 : kvGet t2 kv1.failures = some 1 := by
    rw [f1]
    simp [kvGet, w2]
  have f2 : kv2.failures = some (2, some (t2 + 300)) := by
    have := (recordFailureScript_failures t2 kv1).1
    rw [g2] at this
    simpa [hkv2] using this
  have g3 : kvGet t3 kv2.failures = some 2 := by
    rw [f2]
    simp [kvGet, w3]
  have f3 : kv3.failures = some (3, some (t3 + 300)) := by
    have := (recordFailureScript_failures t3 kv2).1
    rw [g3] at this
    simpa [hkv3] using this
  have g4 : kvGet t4 kv3.failures = some 3 := by
    rw [f3]
    simp [kvGet, w4]
  have f4 : kv4.failures = some (4, some (t4 + 300)) := by
    have := (recordFailureScript_failures t4 kv3).1
    rw [g4] at this
    simpa [hkv4] using this
  have g5 : kvGet t5 kv4.failures = some 4 := by
    rw [f4]
    simp [kvGet, w5]
  have h5c : (recordFailureScript t5 kv4).2 = 5 := by
    have := (recordFailureScript_failures t5 kv4).2
    rw [g5] at this
    simpa using this
  have hstate : (recordFailureScript t5 kv4).1.state = some ("open", some (t5 + 30)) := by
    unfold recordFailureScript
    rw [g5]
    norm_num
  refine ⟨h5c, hstate, ?_⟩
  have hget : kvGet tq (recordFailureScript t5 kv4).1.state = some "open" := by
    rw [hstate]
    simp [kvGet, hq2]
  have httl : kvTtl tq (recordFailureScript t5 kv4).1.state = t5 + 30 - tq := by
    rw [hstate]
    simp [kvTtl, hq2]
  unfold allowRequest allowRequestScript
  rw [hget, httl]
  have hpos : ¬ (t5 + 30 - tq ≤ 0) := by omega
  simp [hpos]

/-- Witness for C8: five failures at times 0..4 from the empty breaker
state open the circuit until time 34; `allow_request` at time 10 denies. -/
theorem breaker_opens_after_five_failures_witness :
    kvGet 0 (CBState.mk none none none).failures = none
    ∧ (recordFailureScript 4 (recordFailureScript 3 (recordFailureScript 2
        (recordFailureScript 1 (recordFailureScript 0 ⟨none, none, none⟩).1).1).1).1).2 = 5
    ∧ (recordFailureScript 4 (recordFailureScript 3 (recordFailureScript 2
        (recordFailureScript 1 (recordFailureScript 0 ⟨none, none, none⟩).1).1).1).1).1.state
        = some ("open", some 34)
    ∧ allowRequest 10 (recordFailureScript 4 (recordFailureScript 3
        (recordFailureScript 2 (recordFailureScript 1
          (recordFailureScript 0 ⟨none, none, none⟩).1).1).1).1).1
        = ((recordFailureScript 4 (recordFailureScript 3 (recordFailureScript 2
            (recordFailureScript 1 (recordFailureScript 0 ⟨none, none, none⟩).1).1).1).1).1,
           false) := by
  have h := breaker_opens_after_five_failures ⟨none, none, none⟩ 0 1 2 3 4 10
    rfl (by norm_num) (by norm_num) (by norm_num) (by norm_num) (by norm_num)
    (by norm_num) (by norm_num) (by norm_num) (by norm_num) (by norm_num)
  refine ⟨rfl, h.1, by simpa using h.2.1, h.2.2⟩

/-- C4 counterexample: a response whose `Content-Length` exceeds the
1 MiB cap makes `read_body` return ResponseTooLarge, but the call also
dispatches `record_failure_sync()` once (second component 1, not 0), so
the circuit-breaker state is not left untouched as claimed. -/
theorem readBody_tooLarge_records_failure_cex :
    readBody (fun _ => "") ⟨200, some 1048577, Except.ok []⟩
      = (Except.error ConvexError.responseTooLarge, 1)
    ∧ (1 : Nat) ≠ 0 := by
  exact ⟨rfl, by decide⟩

/-- C4 amended: when a CP response exceeds the 1 MiB cap — detected via
`Content-Length` before buffering or via the accumulated size after
reading — `read_body` returns ResponseTooLarge and records exactly one
circuit-breaker failure; on the flush path the batch is dropped (never
re-enqueued), like every non-CircuitOpen error. -/
theorem readBody_tooLarge_drops_and_records_failure {B : Type} :
    ∀ (lossy : List Nat → String) (r : HttpResp),
      ((readBody lossy r).1 = Except.error ConvexError.responseTooLarge →
        (readBody lossy r).2 = 1)
      ∧ (∀ len, r.contentLength = some len → MAX_RESPONSE_SIZE < len →
          readBody lossy r = (Except.error ConvexError.responseTooLarge, 1))
      ∧ (∀ bytes, (∀ len, r.contentLength = some len → len ≤ MAX_RESPONSE_SIZE) →
          r.bodyBytes = Except.ok bytes → MAX_RESPONSE_SIZE < bytes.length →
          readBody lossy r = (Except.error ConvexError.responseTooLarge, 1))
      ∧ (∀ (enc : B → Option String) (restBuf : List String) (batch : List B) (ch : Bool),
          flushSlugStep enc restBuf batch ch (Except.error ConvexError.responseTooLarge)
            = ⟨restBuf, false, false⟩) := by
  intro lossy r
  refine ⟨?_, ?_, ?_, ?_⟩
  · intro h
    unfold readBody at h
    split at h
    · rename_i hc
      simp [readBody, hc]
    · rename_i hc
      split at h
      · simp at h
      · rename_i bytes heq
        split at h
        · rename_i hlen
          simp [readBody, hc, heq, hlen]
        · simp at h
  · intro len hlen hgt
    unfold readBody
    rw [hlen]
    simp [hgt]
  · intro bytes hcl hok hgt
    unfold readBody
    have : (match r.contentLength with
        | some len => decide (MAX_RESPONSE_SIZE < len)
        | none => false) = false := by
      cases h : r.contentLength with
      | none => rfl
      | some len =>
          have hle := hcl len h
          simp only [decide_eq_false_iff_not, not_lt]
          exact hle
    rw [this]
    simp only [Bool.false_eq_true, if_false]
    rw [hok]
    simp [hgt]
  · intro enc restBuf batch ch
    simp [flushSlugStep]

/-- Witness for C4 at concrete inputs: over-cap Content-Length, over-cap
accumulated body, and the flush-path drop. -/
theorem readBody_tooLarge_drops_witness :
    readBody (fun _ => "") ⟨200, some 1048577, Except.ok []⟩
      = (Except.error ConvexError.responseTooLarge, 1)
    ∧ readBody (fun _ => "") ⟨200, none, Except.ok (List.replicate 1048577 0)⟩
      = (Except.error ConvexError.responseTooLarge, 1)
    ∧ flushSlugStep (fun (s : String) => some s) ["r"] ["x"] false
        (Except.error ConvexError.responseTooLarge) = ⟨["r"], false, false⟩ := by
  refine ⟨?_, ?_, ?_⟩
  · exact (readBody_tooLarge_drops_and_records_failure (B := String)
      (fun _ => "") ⟨200, some 1048577, Except.ok []⟩).2.1 1048577 rfl (by norm_num [MAX_RESPONSE_SIZE])
  · have hlen : (List.replicate 1048577 (0 : Nat)).length = 1048577 :=
      List.length_replicate _ _
    exact (readBody_tooLarge_drops_and_records_failure (B := String)
      (fun _ => "") ⟨200, none, Except.ok (List.replicate 1048577 0)⟩).2.2.1
      (List.replicate 1048577 0) (by intro len h; cases h) rfl
      (by rw [hlen]; norm_num [MAX_RESPONSE_SIZE])
  · exact (readBody_tooLarge_drops_and_records_failure (B := String)
      (fun _ => "") ⟨200, none, Except.ok []⟩).2.2.2
      (fun s => some s) ["r"] ["x"] false

/-- C7: whenever `handle_webhook` consults `check_dedup` and the request
is classified a duplicate (`firstSeen = false`), the request is not
buffered, yet the handler returns exactly the response the same request
would have received as a first-seen request — the built mock response
when the endpoint has one, otherwise 200 `"OK"` — and the first-seen run
does buffer. -/
theorem duplicate_skips_buffer_same_response :
    ∀ (hdrOk : String → String → Bool) (slug : String) (env : HandlerEnv),
      (handleWebhook hdrOk slug { env with firstSeen := false }).dedupConsulted = true →
      (handleWebhook hdrOk slug { env with firstSeen := false }).buffered = false
      ∧ (handleWebhook hdrOk slug { env with firstSeen := false }).resp
          = (handleWebhook hdrOk slug { env with firstSeen := true }).resp
      ∧ (handleWebhook hdrOk slug { env with firstSeen := true }).buffered = true := by
  intro hdrOk slug env
  rcases env with ⟨cache, fetch, q1, q2, fs, now⟩
  by_cases hv : isValidSlug slug
  · cases cache with
    | some ep =>
        by_cases hnf : ep.error = "not_found"
        · simp [handleWebhook, hv, hnf]
        · by_cases hex : isExpired ep now
          · simp [handleWebhook, handlerAfterResolve, hv, hnf, hex]
          · cases q1 with
            | exceeded => simp [handleWebhook, handlerAfterResolve, hv, hnf, hex]
            | allowed =>
                simp [handleWebhook, handlerAfterResolve, handlerAfterQuota, hv, hnf, hex]
            | notFound =>
                cases q2 <;>
                  simp [handleWebhook, handlerAfterResolve, handlerAfterQuota, hv, hnf, hex]
    | none =>
        cases fetch with
        | ok o =>
            cases o with
            | some ep =>
                by_cases hex : isExpired ep now
                · simp [handleWebhook, handlerAfterResolve, hv, hex]
                · cases q1 with
                  | exceeded => simp [handleWebhook, handlerAfterResolve, hv, hex]
                  | allowed =>
                      simp [handleWebhook, handlerAfterResolve, handlerAfterQuota, hv, hex]
                  | notFound =>
                      cases q2 <;>
                        simp [handleWebhook, handlerAfterResolve, handlerAfterQuota, hv, hex]
            | none => simp [handleWebhook, hv]
        | error e => simp [handleWebhook, hv]
  · simp [handleWebhook, hv]

/-- Witness for C7: a cached live endpoint with a mock response and an
allowed quota; the duplicate run does not buffer and returns the same
mock response the first-seen run returns while buffering. -/
theorem duplicate_skips_buffer_same_response_witness :
    (handleWebhook (fun _ _ => true) "abc"
        { cache := some ⟨"e1", some "u1", false, none,
            some ⟨418, "teapot", [("X-Mock", "1")]⟩, ""⟩,
          fetch := Except.ok none, quota1 := QuotaResult.allowed,
          quota2 := QuotaResult.allowed, firstSeen := false, now := 0 }).dedupConsulted = true
    ∧ (handleWebhook (fun _ _ => true) "abc"
        { cache := some ⟨"e1", some "u1", false, none,
            some ⟨418, "teapot", [("X-Mock", "1")]⟩, ""⟩,
          fetch := Except.ok none, quota1 := QuotaResult.allowed,
          quota2 := QuotaResult.allowed, firstSeen := false, now := 0 }).buffered = false
    ∧ (handleWebhook (fun _ _ => true) "abc"
        { cache := some ⟨"e1", some "u1", false, none,
            some ⟨418, "teapot", [("X-Mock", "1")]⟩, ""⟩,
          fetch := Except.ok none, quota1 := QuotaResult.allowed,
          quota2 := QuotaResult.allowed, firstSeen := false, now := 0 }).resp
      = (handleWebhook (fun _ _ => true) "abc"
        { cache := some ⟨"e1", some "u1", false, none,
            some ⟨418, "teapot", [("X-Mock", "1")]⟩, ""⟩,
          fetch := Except.ok none, quota1 := QuotaResult.allowed,
          quota2 := QuotaResult.allowed, firstSeen := true, now := 0 }).resp
    ∧ (handleWebhook (fun _ _ => true) "abc"
        { cache := some ⟨"e1", some "u1", false, none,
            some ⟨418, "teapot", [("X-Mock", "1")]⟩, ""⟩,
          fetch := Except.ok none, quota1 := QuotaResult.allowed,
          quota2 := QuotaResult.allowed, firstSeen := true, now := 0 }).buffered = true := by
  have h := duplicate_skips_buffer_same_response (fun _ _ => true) "abc"
    { cache := some ⟨"e1", some "u1", false, none,
        some ⟨418, "teapot", [("X-Mock", "1")]⟩, ""⟩,
      fetch := Except.ok none, quota1 := QuotaResult.allowed,
      quota2 := QuotaResult.allowed, firstSeen := false, now := 0 }
    (by decide)
  exact ⟨by decide, h.1, h.2.1, h.2.2⟩

theorem natOrEqZero (x y : Nat) : x ||| y = 0 ↔ x = 0 ∧ y = 0 := by
  constructor
  · intro h
    refine ⟨Nat.eq_of_testBit_eq fun i => ?_, Nat.eq_of_testBit_eq fun i => ?_⟩
    · have ht := congrArg (fun n => Nat.testBit n i) h
      simp [Nat.testBit_or] at ht
      simp [ht.1]
    · have ht := congrArg (fun n => Nat.testBit n i) h
      simp [Nat.testBit_or] at ht
      simp [ht.2]
  · rintro ⟨rfl, rfl⟩
    rfl

theorem foldl_lor_eq_zero : ∀ (l : List Nat) (x : Nat),
    l.foldl Nat.lor x = 0 ↔ x = 0 ∧ ∀ y ∈ l, y = 0 := by
  intro l
  induction l with
  | nil => intro x; simp
  | cons z zs ih =>
      intro x
      simp only [List.foldl_cons]
      rw [ih]
      have hz : Nat.lor x z = x ||| z := rfl
      rw [hz, natOrEqZero]
      simp only [List.mem_cons]
      constructor
      · rintro ⟨⟨hx, hzz⟩, hzs⟩
        refine ⟨hx, ?_⟩
        rintro y (rfl | hy)
        · exact hzz
        · exact hzs y hy
      · rintro ⟨hx, hall⟩
        exact ⟨⟨hx, hall z (Or.inl rfl)⟩, fun y hy => hall y (Or.inr hy)⟩

theorem zipWith_xor_all_zero_ext : ∀ (a b : List Nat), a.length = b.length →
    (∀ y ∈ List.zipWith Nat.xor a b, y = 0) → a = b := by
  intro a
  induction a with
  | nil =>
      intro b hlen _
      cases b with
      | nil => rfl
      | cons y ys => simp at hlen
  | cons x xs ih =>
      intro b hlen hall
      cases b with
      | nil => simp at hlen
      | cons y ys =>
          have hxy : Nat.xor x y = 0 := hall _ (by simp)
          have hx : x = y := Nat.xor_eq_zero.mp hxy
          have hrest : xs = ys := ih ys (by simpa using hlen)
            (fun z hz => hall z (by simp [hz]))
          rw [hx, hrest]

theorem zipWith_xor_self (a : List Nat) :
    List.zipWith Nat.xor a a = List.replicate a.length 0 := by
  induction a with
  | nil => rfl
  | cons x xs ih =>
      show (Nat.xor x x) :: List.zipWith Nat.xor xs xs = List.replicate (xs.length + 1) 0
      have hx : Nat.xor x x = 0 := Nat.xor_self x
      rw [hx, ih, List.replicate_succ]

theorem ctEq_eq_true_iff (a b : List Nat) : ctEq a b = true ↔ a = b := by
  unfold ctEq
  rw [Bool.and_eq_true, decide_eq_true_eq, beq_iff_eq]
  constructor
  · rintro ⟨hlen, hfold⟩
    rw [foldl_lor_eq_zero] at hfold
    exact zipWith_xor_all_zero_ext a b hlen hfold.2
  · rintro rfl
    refine ⟨rfl, ?_⟩
    rw [foldl_lor_eq_zero]
    refine ⟨rfl, ?_⟩
    rw [zipWith_xor_self]
    intro y hy
    exact List.eq_of_mem_replicate hy

theorem sha256_length (msg : List Nat) : (sha256 msg).length = 32 := by
  unfold sha256
  rfl

theorem hashToFixed_length (data : List Nat) : (hashToFixed data).length = 8 := by
  rfl

/-- C5 counterexample: the digest the cache-invalidate endpoint compares
is not the SHA-256 digest of the header value: at the concrete value
`"Bearer s"`, `hash_to_fixed` produces an 8-byte `DefaultHasher` digest
while SHA-256 produces 32 bytes, so the two digests differ and the
endpoint cannot be comparing SHA-256 digests of 32 bytes as claimed. -/
theorem cache_invalidate_digest_not_sha256_cex :
    hashToFixed (strBytes "Bearer s") ≠ sha256 (strBytes "Bearer s")
    ∧ (hashToFixed (strBytes "Bearer s")).length = 8
    ∧ (sha256 (strBytes "Bearer s")).length = 32 := by
  refine ⟨?_, hashToFixed_length _, sha256_length _⟩
  intro h
  have := congrArg List.length h
  rw [hashToFixed_length, sha256_length] at this
  exact absurd this (by decide)

/-- C5 amended: only the search endpoint's `verify_bearer_token`
compares SHA-256 digests: it authorizes iff the 32-byte SHA-256 digests
of the header value and of `"Bearer " + secret` are equal (the
`ct_eq` comparison decides exactly digest equality).  The
cache-invalidate endpoint instead hashes both values to fixed 8-byte
`DefaultHasher` (SipHash-1-3) digests and authorizes iff those are
equal. -/
theorem bearer_auth_digest_comparison :
    ∀ (auth secret : List Nat),
      (verifyBearerToken auth secret = true ↔
        sha256 auth = sha256 (bearerBytes secret))
      ∧ (sha256 auth).length = 32
      ∧ (cacheInvalidateAuthorized auth secret = true ↔
          hashToFixed auth = hashToFixed (bearerBytes secret))
      ∧ (hashToFixed auth).length = 8 := by
  intro auth secret
  exact ⟨ctEq_eq_true_iff _ _, sha256_length _, ctEq_eq_true_iff _ _, hashToFixed_length _⟩

theorem ediv1000_eq (m : Int) : m.ediv 1000 = m / 1000 := rfl

theorem emod1000_eq (m : Int) : m.emod 1000 = m % 1000 := rfl

theorem digitChar_facts : ∀ d : Nat, d < 10 →
    (Char.ofNat (48 + d)).isDigit = true ∧ (Char.ofNat (48 + d)).toNat = 48 + d := by
  decide

theorem natDecimalGo_fuel : ∀ n f f', n < f → n < f' →
    natDecimalGo f n = natDecimalGo f' n := by
  intro n
  induction n using Nat.strong_induction_on with
  | _ n ih =>
      intro f f' hf hf'
      cases f with
      | zero => omega
      | succ g =>
          cases f' with
          | zero => omega
          | succ g' =>
              simp only [natDecimalGo]
              by_cases h : n < 10
              · simp [h]
              · simp only [h, if_false]
                have hd : n / 10 < n := Nat.div_lt_self (by omega) (by omega)
                rw [ih (n / 10) hd g g' (by omega) (by omega)]

theorem natDecimal_lt10 (n : Nat) (h : n < 10) :
    natDecimal n = [Char.ofNat (48 + n)] := by
  unfold natDecimal
  simp [natDecimalGo, h]

theorem natDecimal_ge10 (n : Nat) (h : ¬ n < 10) :
    natDecimal n = natDecimal (n / 10) ++ [Char.ofNat (48 + n % 10)] := by
  unfold natDecimal
  have h1 : natDecimalGo (n + 1) n
      = natDecimalGo n (n / 10) ++ [Char.ofNat (48 + n % 10)] := by
    simp [natDecimalGo, h]
  rw [h1]
  have hd : n / 10 < n := Nat.div_lt_self (by omega) (by omega)
  rw [natDecimalGo_fuel (n / 10) n (n / 10 + 1) hd (by omega)]

theorem natDecimal_digitsOnly : ∀ n, digitsOnly (natDecimal n) = true := by
  intro n
  induction n using Nat.strong_induction_on with
  | _ n ih =>
      by_cases h : n < 10
      · rw [natDecimal_lt10 n h]
        simp [digitsOnly, (digitChar_facts n h).1]
      · rw [natDecimal_ge10 n h]
        have hrec := ih (n / 10) (Nat.div_lt_self (by omega) (by omega))
        have hm : n % 10 < 10 := Nat.mod_lt _ (by omega)
        simp only [digitsOnly, List.all_append, List.all_cons, List.all_nil,
          Bool.and_true, Bool.and_eq_true] at hrec ⊢
        exact ⟨hrec, (digitChar_facts _ hm).1⟩

theorem natDecimal_ne_nil : ∀ n, natDecimal n ≠ [] := by
  intro n
  by_cases h : n < 10
  · rw [natDecimal_lt10 n h]
    simp
  · rw [natDecimal_ge10 n h]
    simp

theorem digitsNum_from (l : List Char) : ∀ a : Nat,
    l.foldl (fun a c => a * 10 + (c.toNat - 48)) a
      = a * 10 ^ l.length + digitsNum l := by
  induction l with
  | nil => intro a; simp [digitsNum]
  | cons c cs ih =>
      intro a
      have h1 := ih (a * 10 + (c.toNat - 48))
      have h2 := ih (0 * 10 + (c.toNat - 48))
      simp only [digitsNum, List.foldl_cons] at *
      rw [h1, h2]
      simp only [List.length_cons, pow_succ]
      ring

theorem digitsNum_natDecimal : ∀ n, digitsNum (natDecimal n) = n := by
  intro n
  induction n using Nat.strong_induction_on with
  | _ n ih =>
      by_cases h : n < 10
      · rw [natDecimal_lt10 n h]
        simp [digitsNum, (digitChar_facts n h).2]
      · rw [natDecimal_ge10 n h]
        have hrec := ih (n / 10) (Nat.div_lt_self (by omega) (by omega))
        have hm : n % 10 < 10 := Nat.mod_lt _ (by omega)
        simp only [digitsNum, List.foldl_append, List.foldl_cons, List.foldl_nil] at hrec ⊢
        rw [hrec, (digitChar_facts _ hm).2]
        omega

theorem natDecimal_length_le : ∀ n k, 1 ≤ k → n < 10 ^ k →
    (natDecimal n).length ≤ k := by
  intro n
  induction n using Nat.strong_induction_on with
  | _ n ih =>
      intro k hk hn
      by_cases h : n < 10
      · rw [natDecimal_lt10 n h]
        simpa using hk
      · rw [natDecimal_ge10 n h]
        have hk2 : 2 ≤ k := by
          rcases k with _ | k
          · omega
          · rcases k with _ | k
            · simp at hn
              omega
            · omega
        have hpow : 10 ^ k = 10 ^ (k - 1) * 10 := by
          rw [← pow_succ]
          congr 1
          omega
        have hdiv : n / 10 < 10 ^ (k - 1) := by
          rw [Nat.div_lt_iff_lt_mul (by omega)]
          omega
        have := ih (n / 10) (Nat.div_lt_self (by omega) (by omega)) (k - 1)
          (by omega) hdiv
        simp only [List.length_append, List.length_cons, List.length_nil]
        omega

theorem digitsNum_cons_zero (l : List Char) : digitsNum ('0' :: l) = digitsNum l := rfl

theorem natDecimal_length_two (n : Nat) (h1 : 10 ≤ n) (h2 : n < 100) :
    (natDecimal n).length = 2 := by
  rw [natDecimal_ge10 n (by omega), natDecimal_lt10 (n / 10) (by omega)]
  rfl

theorem pad3_spec : ∀ n, n ≤ 999 →
    (pad3 n).length = 3 ∧ digitsOnly (pad3 n) = true ∧ digitsNum (pad3 n) = n := by
  intro n hn
  unfold pad3
  by_cases h10 : n < 10
  · rw [if_pos h10, natDecimal_lt10 n h10]
    refine ⟨rfl, ?_, ?_⟩
    · simp [digitsOnly, (digitChar_facts n h10).1]
    · show digitsNum ('0' :: '0' :: [Char.ofNat (48 + n)]) = n
      rw [digitsNum_cons_zero, digitsNum_cons_zero, ← natDecimal_lt10 n h10,
        digitsNum_natDecimal]
  · rw [if_neg h10]
    by_cases h100 : n < 100
    · rw [if_pos h100]
      refine ⟨?_, ?_, ?_⟩
      · simp [natDecimal_length_two n (by omega) h100]
      · have := natDecimal_digitsOnly n
        simp [digitsOnly] at this ⊢
        exact this
      · rw [digitsNum_cons_zero, digitsNum_natDecimal]
    · rw [if_neg h100]
      refine ⟨?_, natDecimal_digitsOnly n, digitsNum_natDecimal n⟩
      rw [natDecimal_ge10 n (by omega)]
      simp [List.length_append, natDecimal_length_two (n / 10) (by omega) (by omega)]

theorem not_mem_of_digitsOnly (l : List Char) (c : Char) (hc : c.isDigit = false)
    (h : digitsOnly l = true) : c ∉ l := by
  intro hm
  simp only [digitsOnly, List.all_eq_true] at h
  have := h c hm
  rw [hc] at this
  exact absurd this (by simp)

theorem splitOnChar_not_mem (sep : Char) : ∀ l, sep ∉ l → splitOnChar sep l = [l] := by
  intro l
  induction l with
  | nil => intro _; rfl
  | cons c cs ih =>
      intro h
      have hcs : sep ∉ cs := fun hm => h (List.mem_cons_of_mem _ hm)
      have hc : ¬(c = sep) := fun he => h (he ▸ List.mem_cons_self _ _)
      simp [splitOnChar, hc, ih hcs]

theorem splitOnChar_append (sep : Char) : ∀ l1 l2, sep ∉ l1 →
    splitOnChar sep (l1 ++ sep :: l2) = l1 :: splitOnChar sep l2 := by
  intro l1
  induction l1 with
  | nil =>
      intro l2 _
      simp [splitOnChar]
  | cons c cs ih =>
      intro l2 h
      have hcs : sep ∉ cs := fun hm => h (List.mem_cons_of_mem _ hm)
      have hc : ¬(c = sep) := fun he => h (he ▸ List.mem_cons_self _ _)
      simp only [List.cons_append, splitOnChar, hc, if_false, List.append_eq]
      rw [ih l2 hcs]

theorem digit_not_sign (c : Char) (hc : c.isDigit = true) :
    ¬(c = '-') ∧ ¬(c = '+') := by
  constructor
  · intro he
    rw [he] at hc
    exact absurd hc (by decide)
  · intro he
    rw [he] at hc
    exact absurd hc (by decide)

theorem parseF64_encode_nonneg (s mm : Nat) (hmm : mm ≤ 999) :
    parseF64 (natDecimal s ++ '.' :: pad3 mm)
      = some ((s : Rat) + (mm : Rat) / 1000) := by
  obtain ⟨c, cs, hcons⟩ : ∃ c cs, natDecimal s = c :: cs := by
    cases h : natDecimal s with
    | nil => exact absurd h (natDecimal_ne_nil s)
    | cons c cs => exact ⟨c, cs, rfl⟩
  have hcd : c.isDigit = true := by
    have hall := natDecimal_digitsOnly s
    rw [hcons] at hall
    simp only [digitsOnly, List.all_cons, Bool.and_eq_true] at hall
    exact hall.1
  have hsign := digit_not_sign c hcd
  have hsplit : splitOnChar '.' (natDecimal s ++ '.' :: pad3 mm)
      = [natDecimal s, pad3 mm] := by
    rw [splitOnChar_append '.' _ _
      (not_mem_of_digitsOnly _ _ (by decide) (natDecimal_digitsOnly s))]
    rw [splitOnChar_not_mem '.' _
      (not_mem_of_digitsOnly _ _ (by decide) (pad3_spec mm hmm).2.1)]
  have hbody : parseF64Unsigned (natDecimal s ++ '.' :: pad3 mm)
      = some ((s : Rat) + (mm : Rat) / 1000) := by
    unfold parseF64Unsigned
    rw [hsplit]
    show (if (natDecimal s ≠ [] ∨ pad3 mm ≠ []) ∧ digitsOnly (natDecimal s) = true
            ∧ digitsOnly (pad3 mm) = true then
        some (((digitsNum (natDecimal s) : Nat) : Rat)
          + ((digitsNum (pad3 mm) : Nat) : Rat) / ((10 : Rat) ^ (pad3 mm).length))
      else none) = some ((s : Rat) + (mm : Rat) / 1000)
    rw [if_pos ⟨Or.inl (natDecimal_ne_nil s), natDecimal_digitsOnly s, (pad3_spec mm hmm).2.1⟩]
    rw [digitsNum_natDecimal, (pad3_spec mm hmm).2.2, (pad3_spec mm hmm).1]
    norm_num
  rw [hcons, List.cons_append]
  show parseF64 (c :: (cs ++ '.' :: pad3 mm)) = _
  rw [parseF64]
  rw [if_neg hsign.1, if_neg hsign.2, ← List.cons_append, ← hcons]
  exact hbody

/-- The sanity-window comparison fails for encoded values at or below the
2000-01-01 bound. -/
theorem parseReceivedAt_encode_small (m : Int) (h0 : 0 ≤ m)
    (h1 : m ≤ 946684800000) : parseReceivedAt (epochMsToChDecimal m) = 0 := by
  have hdnn : ¬(m.ediv 1000 < 0) := by
    rw [ediv1000_eq]
    omega
  have hmme : (m.emod 1000).toNat ≤ 999 := by
    rw [emod1000_eq]
    omega
  have henc : epochMsToChDecimal m
      = natDecimal (m.ediv 1000).toNat ++ '.' :: pad3 (m.emod 1000).toNat := by
    unfold epochMsToChDecimal intDecimal
    rw [if_neg hdnn]
  set s := (m.ediv 1000).toNat with hs
  set mm := (m.emod 1000).toNat with hmm
  have hsle : s ≤ 946684800 := by
    rw [hs, ediv1000_eq]
    omega
  rw [henc]
  unfold parseReceivedAt
  rw [parseF64_encode_nonneg s mm hmme]
  show (if (946684800 : Rat) < (s : Rat) + (mm : Rat) / 1000
          ∧ (s : Rat) + (mm : Rat) / 1000 < 4102444800 then
      ((s : Rat) + (mm : Rat) / 1000) * 1000
    else parseReceivedAtDatetime (natDecimal s ++ '.' :: pad3 mm)) = 0
  have hnogt : ¬((946684800 : Rat) < (s : Rat) + (mm : Rat) / 1000) := by
    rcases eq_or_lt_of_le hsle with heq | hlt
    · have hmm0 : mm = 0 := by
        rw [hmm, emod1000_eq]
        rw [hs, ediv1000_eq] at heq
        omega
      rw [heq, hmm0]
      norm_num
    · have h9 : (mm : Rat) ≤ 999 := by exact_mod_cast hmme
      have hsr : (s : Rat) ≤ 946684799 := by exact_mod_cast (by omega : s ≤ 946684799)
      intro hcon
      have : (mm : Rat) / 1000 < 1 := by linarith
      linarith
  rw [if_neg (by intro hand; exact hnogt hand.1)]
  unfold parseReceivedAtDatetime
  have hlen : (natDecimal s).length ≤ 9 :=
    natDecimal_length_le s 9 (by omega) (by omega)
  rw [if_neg ?hlt]
  case hlt =>
    simp only [List.length_append, List.length_cons, (pad3_spec mm hmme).1]
    omega

/-- C6 counterexample: the round-trip fails already at the non-negative
epoch value m = 1000: `encode(1000) = "1.000"`, whose seconds value 1
falls outside the sanity window, so `parse` falls through to the
datetime branch (too short) and returns 0, not 1000. -/
theorem timestamp_roundtrip_cex :
    parseReceivedAt (epochMsToChDecimal 1000) = 0
    ∧ (0 : Rat) ≠ (1000 : Rat)
    ∧ epochMsToChDecimal 1000 = ("1.000").data := by
  refine ⟨parseReceivedAt_encode_small 1000 (by norm_num) (by norm_num), by norm_num, ?_⟩
  decide

/-- C6 amended: the encoder renders `m` as `"{m.div_euclid(1000)}.{m.rem_euclid(1000):03}"`.
For negative `m` the string has the claimed form `"-s.mmm"` with the
millisecond part a 3-digit value in [000..999] (e.g. encode(-1) =
"-1.999"), but `parse(encode(m)) = m` does not hold for every `m ≥ 0`:
the parser only accepts seconds strictly inside the sanity window
(946684800, 4102444800), and for every `0 ≤ m ≤ 946_684_800_000` it
returns 0 instead (the datetime fallback rejects the short string). -/
theorem timestamp_encode_parse_characterization :
    ∀ m : Int,
      (0 ≤ m → m ≤ 946684800000 → parseReceivedAt (epochMsToChDecimal m) = 0)
      ∧ (m < 0 → ∃ ds mmm, mmm ≤ 999
          ∧ epochMsToChDecimal m = '-' :: ds ++ '.' :: pad3 mmm
          ∧ digitsOnly ds = true ∧ ds ≠ []
          ∧ (pad3 mmm).length = 3 ∧ digitsOnly (pad3 mmm) = true) := by
  intro m
  constructor
  · intro h0 h1
    exact parseReceivedAt_encode_small m h0 h1
  · intro hneg
    have hdiv : m.ediv 1000 < 0 := by
      rw [ediv1000_eq]
      omega
    have hmme : (m.emod 1000).toNat ≤ 999 := by
      rw [emod1000_eq]
      omega
    refine ⟨natDecimal (m.ediv 1000).natAbs, (m.emod 1000).toNat, hmme, ?_,
      natDecimal_digitsOnly _, natDecimal_ne_nil _,
      (pad3_spec _ hmme).1, (pad3_spec _ hmme).2.1⟩
    unfold epochMsToChDecimal intDecimal
    rw [if_pos hdiv]

/-- Witness for C6 at concrete inputs: `parse(encode(123456)) = 0` and
`encode(-1) = "-1.999"` in the claimed negative form. -/
theorem timestamp_encode_parse_witness :
    parseReceivedAt (epochMsToChDecimal 123456) = 0
    ∧ (∃ ds mmm, mmm ≤ 999
        ∧ epochMsToChDecimal (-1) = '-' :: ds ++ '.' :: pad3 mmm
        ∧ digitsOnly ds = true ∧ ds ≠ []
        ∧ (pad3 mmm).length = 3 ∧ digitsOnly (pad3 mmm) = true)
    ∧ epochMsToChDecimal (-1) = ("-1.999").data := by
  refine ⟨(timestamp_encode_parse_characterization 123456).1 (by norm_num) (by norm_num),
    (timestamp_encode_parse_characterization (-1)).2 (by norm_num), ?_⟩
  decide

theorem lexAux_false_cons (acc : List Char) (c : Char) (rest : List Char) :
    lexAux false acc (c :: rest)
      = if c = '\'' then (fun p => (p.1, '\'' :: p.2)) <$> lexAux true [] rest
        else (fun p => (p.1, c :: p.2)) <$> lexAux false [] rest := rfl

theorem lexAux_true_quote (acc : List Char) (rest : List Char) :
    lexAux true acc ('\'' :: rest)
      = (fun p => (acc.reverse :: p.1, '\'' :: p.2)) <$> lexAux false [] rest := by
  rw [lexAux.eq_def]
  simp

theorem lexAux_true_backslash (acc : List Char) (d : Char) (rest2 : List Char) :
    lexAux true acc ('\\' :: d :: rest2) = lexAux true (d :: '\\' :: acc) rest2 := rfl

theorem lexAux_true_other (acc : List Char) (c : Char) (rest : List Char)
    (h1 : ¬(c = '\\')) (h2 : ¬(c = '\'')) :
    lexAux true acc (c :: rest) = lexAux true (c :: acc) rest := by
  rw [lexAux.eq_def]
  simp [h1, h2]

theorem lexSpec_nil : LexSpec [] [] [] := by
  intro rest
  show lexAux false [] rest = _
  cases lexAux false [] rest with
  | none => rfl
  | some p => rfl

theorem lexSpec_append {t1 l1 s1 t2 l2 s2 : _} (h1 : LexSpec t1 l1 s1)
    (h2 : LexSpec t2 l2 s2) : LexSpec (t1 ++ t2) (l1 ++ l2) (s1 ++ s2) := by
  intro rest
  rw [List.append_assoc, h1, h2]
  cases lexAux false [] rest with
  | none => rfl
  | some p => simp [List.append_assoc]

theorem lexSpec_noquote : ∀ t : List Char, '\'' ∉ t → LexSpec t [] t := by
  intro t
  induction t with
  | nil => intro _; exact lexSpec_nil
  | cons c cs ih =>
      intro h rest
      have hc : ¬(c = '\'') := fun he => h (he ▸ List.mem_cons_self _ _)
      have hcs := ih (fun hm => h (List.mem_cons_of_mem _ hm))
      show lexAux false [] (c :: (cs ++ rest)) = _
      rw [lexAux_false_cons, if_neg hc, hcs rest]
      cases lexAux false [] rest with
      | none => rfl
      | some p => rfl

theorem lexInside_plain : ∀ t : List Char, '\'' ∉ t → '\\' ∉ t →
    ∀ acc rest, lexAux true acc (t ++ '\'' :: rest)
      = (fun p => ((acc.reverse ++ t) :: p.1, '\'' :: p.2)) <$> lexAux false [] rest := by
  intro t
  induction t with
  | nil =>
      intro _ _ acc rest
      show lexAux true acc ('\'' :: rest) = _
      rw [lexAux_true_quote]
      cases lexAux false [] rest with
      | none => rfl
      | some p => simp
  | cons c cs ih =>
      intro hq hb acc rest
      have hcq : ¬(c = '\'') := fun he => hq (he ▸ List.mem_cons_self _ _)
      have hcb : ¬(c = '\\') := fun he => hb (he ▸ List.mem_cons_self _ _)
      have hq2 : '\'' ∉ cs := fun hm => hq (List.mem_cons_of_mem _ hm)
      have hb2 : '\\' ∉ cs := fun hm => hb (List.mem_cons_of_mem _ hm)
      show lexAux true acc (c :: (cs ++ '\'' :: rest)) = _
      rw [lexAux_true_other _ _ _ hcb hcq, ih hq2 hb2 (c :: acc) rest]
      have hrev : (c :: acc).reverse ++ cs = acc.reverse ++ (c :: cs) := by
        simp
      rw [hrev]

theorem escCH_cons (c : Char) (s : List Char) :
    escapeClickhouseString (c :: s)
      = (if c = '\\' then ['\\', '\\'] else if c = '\'' then ['\\', '\''] else [c])
        ++ escapeClickhouseString s := by
  by_cases h1 : c = '\\'
  · subst h1
    simp [escapeClickhouseString, replaceChar]
  · by_cases h2 : c = '\''
    · subst h2
      simp [escapeClickhouseString, replaceChar]
    · simp [escapeClickhouseString, replaceChar, h1, h2]

theorem lexInside_escaped : ∀ s : List Char, ∀ acc rest,
    lexAux true acc (escapeClickhouseString s ++ '\'' :: rest)
      = (fun p => ((acc.reverse ++ escapeClickhouseString s) :: p.1, '\'' :: p.2))
          <$> lexAux false [] rest := by
  intro s
  induction s with
  | nil =>
      intro acc rest
      exact lexInside_plain [] (by simp) (by simp) acc rest
  | cons c cs ih =>
      intro acc rest
      rw [escCH_cons]
      by_cases h1 : c = '\\'
      · subst h1
        rw [if_pos rfl]
        show lexAux true acc ('\\' :: ('\\' :: (escapeClickhouseString cs ++ '\'' :: rest))) = _
        rw [lexAux_true_backslash, ih ('\\' :: '\\' :: acc) rest]
        have hrev : ('\\' :: '\\' :: acc).reverse ++ escapeClickhouseString cs
            = acc.reverse ++ (['\\', '\\'] ++ escapeClickhouseString cs) := by
          simp
        rw [hrev]
      · by_cases h2 : c = '\''
        · subst h2
          rw [if_neg (by decide), if_pos rfl]
          show lexAux true acc ('\\' :: ('\'' :: (escapeClickhouseString cs ++ '\'' :: rest))) = _
          rw [lexAux_true_backslash, ih ('\'' :: '\\' :: acc) rest]
          have hrev : ('\'' :: '\\' :: acc).reverse ++ escapeClickhouseString cs
              = acc.reverse ++ (['\\', '\''] ++ escapeClickhouseString cs) := by
            simp
          rw [hrev]
        · rw [if_neg h1, if_neg h2]
          show lexAux true acc (c :: (escapeClickhouseString cs ++ '\'' :: rest)) = _
          rw [lexAux_true_other _ _ _ h1 h2, ih (c :: acc) rest]
          have hrev : (c :: acc).reverse ++ escapeClickhouseString cs
              = acc.reverse ++ ([c] ++ escapeClickhouseString cs) := by
            simp
          rw [hrev]

theorem lexSpec_lit_escaped (s : List Char) :
    LexSpec ('\'' :: escapeClickhouseString s ++ ['\''])
      [escapeClickhouseString s] ('\'' :: ['\'']) := by
  intro rest
  have hre : ('\'' :: escapeClickhouseString s ++ ['\'']) ++ rest
      = '\'' :: (escapeClickhouseString s ++ '\'' :: rest) := by
    simp
  rw [hre, lexAux_false_cons, if_pos rfl, lexInside_escaped s [] rest]
  cases lexAux false [] rest with
  | none => rfl
  | some p => rfl

theorem lexSpec_lit_plain (t : List Char) (hq : '\'' ∉ t) (hb : '\\' ∉ t) :
    LexSpec ('\'' :: t ++ ['\'']) [t] ('\'' :: ['\'']) := by
  intro rest
  have hre : ('\'' :: t ++ ['\'']) ++ rest = '\'' :: (t ++ '\'' :: rest) := by
    simp
  rw [hre, lexAux_false_cons, if_pos rfl, lexInside_plain t hq hb [] rest]
  cases lexAux false [] rest with
  | none => rfl
  | some p => rfl

theorem joinSep_cons_cons (sep x y : List Char) (xs : List (List Char)) :
    joinSep sep (x :: y :: xs) = x ++ sep ++ joinSep sep (y :: xs) := rfl

theorem lexSpec_joinSep (sep : List Char) (hsep : '\'' ∉ sep) :
    ∀ metas : List (List Char × List (List Char) × List Char),
      (∀ m ∈ metas, LexSpec m.1 m.2.1 m.2.2) →
      LexSpec (joinSep sep (metas.map (fun m => m.1)))
        ((metas.map (fun m => m.2.1)).flatten)
        (joinSep sep (metas.map (fun m => m.2.2))) := by
  intro metas
  induction metas with
  | nil => intro _; exact lexSpec_nil
  | cons m ms ih =>
      intro hall
      have hm := hall m (List.mem_cons_self _ _)
      have hms := ih (fun x hx => hall x (List.mem_cons_of_mem _ hx))
      cases ms with
      | nil =>
          simp only [List.map_cons, List.map_nil, joinSep, List.flatten_cons,
            List.flatten_nil, List.append_nil]
          exact hm
      | cons m2 ms2 =>
          have hcomp := lexSpec_append hm (lexSpec_append (lexSpec_noquote sep hsep) hms)
          simp only [List.map_cons, List.flatten_cons, List.nil_append] at hcomp
          simp only [List.map_cons, List.flatten_cons, joinSep_cons_cons]
          intro rest
          have e1 : m.1 ++ sep ++ joinSep sep (m2.1 :: List.map (fun m => m.1) ms2)
              = m.1 ++ (sep ++ joinSep sep (m2.1 :: List.map (fun m => m.1) ms2)) := by
            simp [List.append_assoc]
          have e2 : m.2.2 ++ sep ++ joinSep sep (m2.2.2 :: List.map (fun m => m.2.2) ms2)
              = m.2.2 ++ (sep ++ joinSep sep (m2.2.2 :: List.map (fun m => m.2.2) ms2)) := by
            simp [List.append_assoc]
          rw [e1, e2]
          exact hcomp rest

theorem lexSpec_eq_cast {t t' : List Char} {lits lits' : List (List Char)}
    {sk sk' : List Char} (h : LexSpec t' lits' sk') (ht : t = t')
    (hl : lits = lits') (hsk : sk = sk') : LexSpec t lits sk := by
  subst ht
  subst hl
  subst hsk
  exact h

theorem mem_replaceChar {pat : Char} {rep l : List Char} {c : Char}
    (hm : c ∈ replaceChar pat rep l) : c ∈ rep ∨ c ∈ l := by
  simp only [replaceChar, List.mem_flatMap] at hm
  obtain ⟨a, hal, hc⟩ := hm
  by_cases h : a = pat
  · rw [if_pos h] at hc
    exact Or.inl hc
  · rw [if_neg h] at hc
    simp at hc
    subst hc
    exact Or.inr hal

theorem escId_noquote {db : List Char} (hdb : '\'' ∉ db) :
    '\'' ∉ escapeClickhouseIdentifier db := by
  intro hm
  rcases mem_replaceChar hm with h | h
  · exact absurd h (by decide)
  · exact hdb h

theorem searchOrder_noquote (p : SearchParams) : '\'' ∉ searchOrder p := by
  unfold searchOrder
  split
  · decide
  · decide

theorem natDecimal_noquote (n : Nat) : '\'' ∉ natDecimal n :=
  not_mem_of_digitsOnly _ _ (by decide) (natDecimal_digitsOnly n)

theorem mem_encode_classify (v : Int) (c : Char) (hm : c ∈ epochMsToChDecimal v) :
    c.isDigit = true ∨ c = '-' ∨ c = '.' := by
  have hmm : (v.emod 1000).toNat ≤ 999 := by
    rw [emod1000_eq]
    omega
  have hpd := (pad3_spec _ hmm).2.1
  simp only [digitsOnly, List.all_eq_true] at hpd
  unfold epochMsToChDecimal intDecimal at hm
  by_cases hneg : v.ediv 1000 < 0
  · rw [if_pos hneg] at hm
    have hnd := natDecimal_digitsOnly (v.ediv 1000).natAbs
    simp only [digitsOnly, List.all_eq_true] at hnd
    simp only [List.cons_append, List.mem_cons, List.mem_append] at hm
    rcases hm with rfl | (h | (rfl | h))
    · exact Or.inr (Or.inl rfl)
    · exact Or.inl (hnd c h)
    · exact Or.inr (Or.inr rfl)
    · exact Or.inl (hpd c h)
  · rw [if_neg hneg] at hm
    have hnd := natDecimal_digitsOnly (v.ediv 1000).toNat
    simp only [digitsOnly, List.all_eq_true] at hnd
    simp only [List.mem_append, List.mem_cons] at hm
    rcases hm with h | (rfl | h)
    · exact Or.inl (hnd c h)
    · exact Or.inr (Or.inr rfl)
    · exact Or.inl (hpd c h)

theorem epochMs_noquote (v : Int) : '\'' ∉ epochMsToChDecimal v := by
  intro hm
  rcases mem_encode_classify v _ hm with h | h | h
  · exact absurd h (by decide)
  · exact absurd h (by decide)
  · exact absurd h (by decide)

theorem epochMs_nobackslash (v : Int) : '\\' ∉ epochMsToChDecimal v := by
  intro hm
  rcases mem_encode_classify v _ hm with h | h | h
  · exact absurd h (by decide)
  · exact absurd h (by decide)
  · exact absurd h (by decide)

theorem lexSpec_condUserId (uid : List Char) :
    LexSpec (("user_id = '").data ++ escapeClickhouseString uid ++ ['\''])
      [escapeClickhouseString uid] (("user_id = ''").data) := by
  refine lexSpec_eq_cast
    (lexSpec_append (lexSpec_noquote (("user_id = ").data) (by decide))
      (lexSpec_lit_escaped uid)) ?_ ?_ ?_
  · simp
  · simp
  · decide

theorem lexSpec_condSlug (s : List Char) :
    LexSpec (("slug = '").data ++ escapeClickhouseString s ++ ['\''])
      [escapeClickhouseString s] (("slug = ''").data) := by
  refine lexSpec_eq_cast
    (lexSpec_append (lexSpec_noquote (("slug = ").data) (by decide))
      (lexSpec_lit_escaped s)) ?_ ?_ ?_
  · simp
  · simp
  · decide

theorem lexSpec_condMethod (m : List Char) :
    LexSpec (("method = '").data ++ escapeClickhouseString m ++ ['\''])
      [escapeClickhouseString m] (("method = ''").data) := by
  refine lexSpec_eq_cast
    (lexSpec_append (lexSpec_noquote (("method = ").data) (by decide))
      (lexSpec_lit_escaped m)) ?_ ?_ ?_
  · simp
  · simp
  · decide

theorem lexSpec_condQ (qq : List Char) :
    LexSpec (("(multiSearchAny(path, ['").data ++ escapeClickhouseString qq
        ++ ("']) OR multiSearchAny(body, ['").data ++ escapeClickhouseString qq
        ++ ("']) OR multiSearchAny(headers, ['").data ++ escapeClickhouseString qq
        ++ ("']))").data)
      [escapeClickhouseString qq, escapeClickhouseString qq, escapeClickhouseString qq]
      (("(multiSearchAny(path, ['']) OR multiSearchAny(body, ['']) OR multiSearchAny(headers, ['']))").data) := by
  refine lexSpec_eq_cast
    (lexSpec_append (lexSpec_noquote (("(multiSearchAny(path, [").data) (by decide))
      (lexSpec_append (lexSpec_lit_escaped qq)
        (lexSpec_append (lexSpec_noquote (("]) OR multiSearchAny(body, [").data) (by decide))
          (lexSpec_append (lexSpec_lit_escaped qq)
            (lexSpec_append
              (lexSpec_noquote (("]) OR multiSearchAny(headers, [").data) (by decide))
              (lexSpec_append (lexSpec_lit_escaped qq)
                (lexSpec_noquote (("]))").data) (by decide)))))))) ?_ ?_ ?_
  · have hA : ("(multiSearchAny(path, ['").data
        = ("(multiSearchAny(path, [").data ++ ['\''] := by decide
    have hB : ("']) OR multiSearchAny(body, ['").data
        = ['\''] ++ ("]) OR multiSearchAny(body, [").data ++ ['\''] := by decide
    have hC : ("']) OR multiSearchAny(headers, ['").data
        = ['\''] ++ ("]) OR multiSearchAny(headers, [").data ++ ['\''] := by decide
    have hD : ("']))").data = ['\''] ++ ("]))").data := by decide
    rw [hA, hB, hC, hD]
    simp [List.append_assoc]
  · simp
  · decide

theorem lexSpec_condFrom (v : Int) :
    LexSpec (("received_at >= toDateTime64('").data ++ epochMsToChDecimal v
        ++ ("', 3, 'UTC')").data)
      [epochMsToChDecimal v, ("UTC").data]
      (("received_at >= toDateTime64('', 3, '')").data) := by
  refine lexSpec_eq_cast
    (lexSpec_append (lexSpec_noquote (("received_at >= toDateTime64(").data) (by decide))
      (lexSpec_append (lexSpec_lit_plain _ (epochMs_noquote v) (epochMs_nobackslash v))
        (lexSpec_append (lexSpec_noquote ((", 3, ").data) (by decide))
          (lexSpec_append (lexSpec_lit_plain (("UTC").data) (by decide) (by decide))
            (lexSpec_noquote ((")").data) (by decide)))))) ?_ ?_ ?_
  · have hA : ("received_at >= toDateTime64('").data
        = ("received_at >= toDateTime64(").data ++ ['\''] := by decide
    have hB : ("', 3, 'UTC')").data
        = ['\''] ++ (", 3, ").data ++ ['\''] ++ ("UTC").data ++ ['\''] ++ (")").data := by
      decide
    rw [hA, hB]
    simp [List.append_assoc]
  · simp
  · decide

theorem lexSpec_condTo (v : Int) :
    LexSpec (("received_at <= toDateTime64('").data ++ epochMsToChDecimal v
        ++ ("', 3, 'UTC')").data)
      [epochMsToChDecimal v, ("UTC").data]
      (("received_at <= toDateTime64('', 3, '')").data) := by
  refine lexSpec_eq_cast
    (lexSpec_append (lexSpec_noquote (("received_at <= toDateTime64(").data) (by decide))
      (lexSpec_append (lexSpec_lit_plain _ (epochMs_noquote v) (epochMs_nobackslash v))
        (lexSpec_append (lexSpec_noquote ((", 3, ").data) (by decide))
          (lexSpec_append (lexSpec_lit_plain (("UTC").data) (by decide) (by decide))
            (lexSpec_noquote ((")").data) (by decide)))))) ?_ ?_ ?_
  · have hA : ("received_at <= toDateTime64('").data
        = ("received_at <= toDateTime64(").data ++ ['\''] := by decide
    have hB : ("', 3, 'UTC')").data
        = ['\''] ++ (", 3, ").data ++ ['\''] ++ ("UTC").data ++ ['\''] ++ (")").data := by
      decide
    rw [hA, hB]
    simp [List.append_assoc]
  · simp
  · decide

theorem searchCondMeta_lexSpec (p : SearchParams) (pc : Option (List Char))
    (slug : Option (List Char))
    (hpc : pc = none ∨ pc = some (("received_at >= now() - INTERVAL 7 DAY").data)) :
    ∀ m ∈ searchCondMeta p pc slug, LexSpec m.1 m.2.1 m.2.2 := by
  intro m hm
  rcases p with ⟨uid, plan0, slg0, mtd0, qv0, fv0, tv0, lim0, off0, ord0⟩
  unfold searchCondMeta at hm
  simp only [List.mem_append] at hm
  rcases hm with ((((((h | h) | h) | h) | h) | h) | h)
  · simp only [List.mem_singleton] at h
    subst h
    exact lexSpec_condUserId uid
  · rcases hpc with rfl | rfl
    · simp at h
    · simp only [List.mem_singleton] at h
      subst h
      exact lexSpec_noquote _ (by decide)
  · cases slug with
    | none => simp at h
    | some s =>
        simp only [List.mem_singleton] at h
        subst h
        exact lexSpec_condSlug s
  · cases mtd0 with
    | none => simp at h
    | some m0 =>
        simp only [] at h
        split at h
        · simp only [List.mem_singleton] at h
          subst h
          exact lexSpec_condMethod m0
        · simp at h
  · cases qv0 with
    | none => simp at h
    | some q0 =>
        simp only [] at h
        split at h
        · simp only [List.mem_singleton] at h
          subst h
          exact lexSpec_condQ q0
        · simp at h
  · cases fv0 with
    | none => simp at h
    | some v =>
        simp only [List.mem_singleton] at h
        subst h
        exact lexSpec_condFrom v
  · cases tv0 with
    | none => simp at h
    | some v =>
        simp only [List.mem_singleton] at h
        subst h
        exact lexSpec_condTo v

theorem lexSpec_assembleSql (p : SearchParams) (db : List Char)
    (pc : Option (List Char)) (slug : Option (List Char)) (hdb : '\'' ∉ db)
    (hpc : pc = none ∨ pc = some (("received_at >= now() - INTERVAL 7 DAY").data)) :
    LexSpec (assembleSql p db pc slug) (searchLits p pc slug)
      (searchSkel p db pc slug) := by
  have hconds := lexSpec_joinSep ((" AND ").data) (by decide) _
    (searchCondMeta_lexSpec p pc slug hpc)
  refine lexSpec_eq_cast
    (lexSpec_append (lexSpec_noquote sqlHead (by decide))
      (lexSpec_append
        (lexSpec_noquote (escapeClickhouseIdentifier db) (escId_noquote hdb))
        (lexSpec_append (lexSpec_noquote (("`.`requests` WHERE ").data) (by decide))
          (lexSpec_append hconds
            (lexSpec_append
              (lexSpec_noquote ((" ORDER BY received_at ").data) (by decide))
              (lexSpec_append (lexSpec_noquote (searchOrder p) (searchOrder_noquote p))
                (lexSpec_append (lexSpec_noquote ((" LIMIT ").data) (by decide))
                  (lexSpec_append
                    (lexSpec_noquote (natDecimal (searchLimit p)) (natDecimal_noquote _))
                    (lexSpec_append
                      (lexSpec_noquote ((" OFFSET ").data) (by decide))
                      (lexSpec_noquote (natDecimal (searchOffset p))
                        (natDecimal_noquote _))))))))))) ?_ ?_ ?_
  · unfold assembleSql
    simp [List.append_assoc]
  · unfold searchLits
    simp
  · unfold searchSkel
    simp [List.append_assoc]

theorem lexQuery_of_spec {t : List Char} {lits : List (List Char)} {sk : List Char}
    (h : LexSpec t lits sk) : lexQuery t = some (lits, sk) := by
  have h0 := h []
  rw [List.append_nil] at h0
  unfold lexQuery
  rw [h0]
  show (fun p => (lits ++ p.1, sk ++ p.2)) <$> some ([], []) = _
  simp

/-- C9: every query built by `build_search_sql` lexes cleanly: its
single-quoted literal contents are exactly the escaped user-supplied
strings (each `'` and `\` escaped by `escape_clickhouse_string`), the
timestamp strings and the fixed `'UTC'` markers, in order; the
literal-blanked skeleton is a fixed template independent of the contents
of `user_id`/`slug`/`method`/`q` — so user strings appear only inside
single-quoted string literals.  Moreover a present slug must pass the
slug regex, `limit` defaults to 50 and is capped at 200, `offset`
defaults to 0 and is capped at 10000, and the order is `DESC` unless the
`order` parameter equals `"asc"`.  (The database identifier comes from
boot-validated config, hypothesis `'\'' ∉ db`.) -/
theorem search_sql_injection_safety :
    ∀ (p : SearchParams) (db q : List Char),
      '\'' ∉ db →
      buildSearchSql p db = Except.ok q →
      (∃ pc, freeRetentionClauseForPlan p.plan = Except.ok pc
        ∧ lexQuery q = some (searchLits p pc p.slug, searchSkel p db pc p.slug))
      ∧ (∀ s, p.slug = some s → isValidSlugChars s = true)
      ∧ searchLimit p = min (p.limit.getD 50) 200
      ∧ searchLimit p ≤ 200 ∧ (p.limit = none → searchLimit p = 50)
      ∧ searchOffset p = min (p.offset.getD 0) 10000
      ∧ searchOffset p ≤ 10000 ∧ (p.offset = none → searchOffset p = 0)
      ∧ (p.order = some (("asc").data) → searchOrder p = ("ASC").data)
      ∧ (p.order ≠ some (("asc").data) → searchOrder p = ("DESC").data) := by
  intro p db q hdb hok
  unfold buildSearchSql at hok
  cases hpl : freeRetentionClauseForPlan p.plan with
  | error e =>
      rw [hpl] at hok
      simp at hok
  | ok pc =>
      rw [hpl] at hok
      simp only [] at hok
      have hpc2 : pc = none ∨ pc = some (("received_at >= now() - INTERVAL 7 DAY").data) := by
        unfold freeRetentionClauseForPlan at hpl
        cases hplan : p.plan with
        | none =>
            rw [hplan] at hpl
            simp only [] at hpl
            simp at hpl
            exact Or.inl hpl.symm
        | some pl =>
            rw [hplan] at hpl
            simp only [] at hpl
            by_cases hfree : pl = ("free").data
            · rw [if_pos hfree] at hpl
              simp at hpl
              exact Or.inr hpl.symm
            · rw [if_neg hfree] at hpl
              by_cases hpro : pl = ("pro").data
              · rw [if_pos hpro] at hpl
                simp at hpl
                exact Or.inl hpl.symm
              · rw [if_neg hpro] at hpl
                simp at hpl
      have hmain : q = assembleSql p db pc p.slug
          ∧ (∀ s, p.slug = some s → isValidSlugChars s = true) := by
        cases hs : p.slug with
        | none =>
            rw [hs] at hok
            simp only [] at hok
            simp only [Except.ok.injEq] at hok
            refine ⟨hok.symm, ?_⟩
            intro s hss
            simp at hss
        | some s =>
            rw [hs] at hok
            simp only [] at hok
            split at hok
            · rename_i hv
              simp only [Except.ok.injEq] at hok
              refine ⟨hok.symm, ?_⟩
              intro s2 hss
              simp only [Option.some.injEq] at hss
              subst hss
              exact hv
            · simp at hok
      obtain ⟨hq, hslug⟩ := hmain
      subst hq
      refine ⟨⟨pc, rfl, lexQuery_of_spec (lexSpec_assembleSql p db pc p.slug hdb hpc2)⟩,
        hslug, rfl, Nat.min_le_right _ _, ?_, rfl, Nat.min_le_right _ _, ?_, ?_, ?_⟩
      · intro h
        simp [searchLimit, h]
      · intro h
        simp [searchOffset, h]
      · intro h
        unfold searchOrder
        rw [if_pos h]
      · intro h
        unfold searchOrder
        rw [if_neg h]

/-- Witness for C9 at a concrete parameter set exercising every branch:
quote/backslash in `user_id`, `free` plan, slug, method, non-empty `q`,
both timestamps, over-cap limit and offset, ascending order. -/
theorem search_sql_injection_safety_witness :
    ('\'' ∉ ("webhooks").data)
    ∧ buildSearchSql
        ⟨("u'id\\x").data, some (("free").data), some (("abc").data), some (("GET").data),
          some (("ne'edle").data), some (-1), some 1001, some 1000, some 20000,
          some (("asc").data)⟩
        (("webhooks").data)
      = Except.ok (assembleSql
          ⟨("u'id\\x").data, some (("free").data), some (("abc").data), some (("GET").data),
            some (("ne'edle").data), some (-1), some 1001, some 1000, some 20000,
            some (("asc").data)⟩
          (("webhooks").data)
          (some (("received_at >= now() - INTERVAL 7 DAY").data)) (some (("abc").data)))
    ∧ ((∃ pc, freeRetentionClauseForPlan (some (("free").data)) = Except.ok pc
        ∧ lexQuery (assembleSql
            ⟨("u'id\\x").data, some (("free").data), some (("abc").data), some (("GET").data),
              some (("ne'edle").data), some (-1), some 1001, some 1000, some 20000,
              some (("asc").data)⟩
            (("webhooks").data)
            (some (("received_at >= now() - INTERVAL 7 DAY").data)) (some (("abc").data)))
          = some (searchLits
              ⟨("u'id\\x").data, some (("free").data), some (("abc").data), some (("GET").data),
                some (("ne'edle").data), some (-1), some 1001, some 1000, some 20000,
                some (("asc").data)⟩
              pc (some (("abc").data)),
            searchSkel
              ⟨("u'id\\x").data, some (("free").data), some (("abc").data), some (("GET").data),
                some (("ne'edle").data), some (-1), some 1001, some 1000, some 20000,
                some (("asc").data)⟩
              (("webhooks").data) pc (some (("abc").data))))
      ∧ (∀ s, (some (("abc").data) : Option (List Char)) = some s → isValidSlugChars s = true)
      ∧ searchLimit
          ⟨("u'id\\x").data, some (("free").data), some (("abc").data), some (("GET").data),
            some (("ne'edle").data), some (-1), some 1001, some 1000, some 20000,
            some (("asc").data)⟩ = min ((some 1000 : Option Nat).getD 50) 200
      ∧ searchLimit
          ⟨("u'id\\x").data, some (("free").data), some (("abc").data), some (("GET").data),
            some (("ne'edle").data), some (-1), some 1001, some 1000, some 20000,
            some (("asc").data)⟩ ≤ 200
      ∧ ((some 1000 : Option Nat) = none → searchLimit
          ⟨("u'id\\x").data, some (("free").data), some (("abc").data), some (("GET").data),
            some (("ne'edle").data), some (-1), some 1001, some 1000, some 20000,
            some (("asc").data)⟩ = 50)
      ∧ searchOffset
          ⟨("u'id\\x").data, some (("free").data), some (("abc").data), some (("GET").data),
            some (("ne'edle").data), some (-1), some 1001, some 1000, some 20000,
            some (("asc").data)⟩ = min ((some 20000 : Option Nat).getD 0) 10000
      ∧ searchOffset
          ⟨("u'id\\x").data, some (("free").data), some (("abc").data), some (("GET").data),
            some (("ne'edle").data), some (-1), some 1001, some 1000, some 20000,
            some (("asc").data)⟩ ≤ 10000
      ∧ ((some 20000 : Option Nat) = none → searchOffset
          ⟨("u'id\\x").data, some (("free").data), some (("abc").data), some (("GET").data),
            some (("ne'edle").data), some (-1), some 1001, some 1000, some 20000,
            some (("asc").data)⟩ = 0)
      ∧ ((some (("asc").data) : Option (List Char)) = some (("asc").data) → searchOrder
          ⟨("u'id\\x").data, some (("free").data), some (("abc").data), some (("GET").data),
            some (("ne'edle").data), some (-1), some 1001, some 1000, some 20000,
            some (("asc").data)⟩ = ("ASC").data)
      ∧ ((some (("asc").data) : Option (List Char)) ≠ some (("asc").data) → searchOrder
          ⟨("u'id\\x").data, some (("free").data), some (("abc").data), some (("GET").data),
            some (("ne'edle").data), some (-1), some 1001, some 1000, some 20000,
            some (("asc").data)⟩ = ("DESC").data)) := by
  refine ⟨by decide, rfl, ?_⟩
  exact search_sql_injection_safety
    ⟨("u'id\\x").data, some (("free").data), some (("abc").data), some (("GET").data),
      some (("ne'edle").data), some (-1), some 1001, some 1000, some 20000,
      some (("asc").data)⟩
    (("webhooks").data)
    (assembleSql
      ⟨("u'id\\x").data, some (("free").data), some (("abc").data), some (("GET").data),
        some (("ne'edle").data), some (-1), some 1001, some 1000, some 20000,
        some (("asc").data)⟩
      (("webhooks").data)
      (some (("received_at >= now() - INTERVAL 7 DAY").data)) (some (("abc").data)))
    (by decide) rfl

end WebhookRecv
